import Mathlib

/-!
Verification of the amoco symbolic-expression algebra (`amoco/cas/expressions.py`).

The Python classes `exp`, `top`, `cst`, `reg`, `comp`, `ptr`, `slc`, `tst`,
`op`, `uop`, `vec`, `vecw` are embedded as one inductive type `Expr`; the
`mem`, `ext`, `lab`, `sym` and `cfp` leaves are outside the modelled fragment
(no claim depends on them; the `_is_ext` test used by the simplifier is kept
as a predicate that is false on every modelled constructor).  Mutating methods
are translated to pure functions returning the new value; Python exceptions
are represented by the extra constructor `Expr.err` (or by `Except.error` in
the composite-part helpers).  The mutually recursive simplifier is embedded
as a structure `Interp` of functions built by recursion on a fuel parameter,
so that every definition is executable and kernel-reducible; each recursive
call of the Python code consumes one fuel level.  The process-wide
configuration value `conf.Cas.complexity` (the module `amoco/config.py` is
not part of the sources) is modelled from the spec as an integer threshold
parameter `T` ("a configurable threshold", spec section 4.2), with `T = 0`
meaning disabled exactly as in `eqn2_helpers`.
-/

namespace Amoco

/-- Exact nonnegative numbers of the form `num / 3 ^ d3`: the value domain of
the Python float computations in `depth`/`complexity` (the only division in
those methods is the `/ 3.0` of `tst.depth`).  `Option PQ` adds the infinity
produced by `top.depth`. -/
structure PQ where
  num : Nat
  d3 : Nat
deriving Repr

def pqAdd (a b : PQ) : PQ := ⟨a.num * 3 ^ b.d3 + b.num * 3 ^ a.d3, a.d3 + b.d3⟩

def pqMulN (a : PQ) (n : Nat) : PQ := ⟨a.num * n, a.d3⟩

def pqDiv3 (a : PQ) : PQ := ⟨a.num, a.d3 + 1⟩

def pqMax (a b : PQ) : PQ :=
  if b.num * 3 ^ a.d3 ≤ a.num * 3 ^ b.d3 then a else b

/-- `a > t` for a natural threshold `t`. -/
def pqGtN (a : PQ) (t : Nat) : Bool := t * 3 ^ a.d3 < a.num

def oAdd : Option PQ → Option PQ → Option PQ
  | some a, some b => some (pqAdd a b)
  | _, _ => none

def oMulN : Option PQ → Nat → Option PQ
  | some a, n => some (pqMulN a n)
  | none, _ => none

def oDiv3 : Option PQ → Option PQ
  | some a => some (pqDiv3 a)
  | none => none

def oMax : Option PQ → Option PQ → Option PQ
  | some a, some b => some (pqMax a b)
  | _, _ => none

/-- `a > t` with `none` (infinity) greater than everything. -/
def oGtN : Option PQ → Nat → Bool
  | some a, t => pqGtN a t
  | none, _ => true

def oSum (l : List (Option PQ)) : Option PQ :=
  l.foldl oAdd (some ⟨0, 0⟩)

/-- Key of a `comp` part: the bit range `(pos, stop)`. -/
abbrev Rng := Nat × Nat

/-- The expression algebra of `cas/expressions.py`.

* `void n` — a bare `exp(n)` instance (`etype == 0`, the undefined/void
  placeholder of known size);
* `top n` — the absorbing unknown of class `top`;
* `cst v size sf` — `cst`: raw unsigned pattern `v`, bit width, sign flag;
* `reg ref size` — `reg`: register identity by name;
* `comp size sf parts` — `comp`: the parts dictionary keyed by bit ranges
  (the derived per-bit index `smask` is recomputed from `parts`);
* `ptr base seg disp size` — `ptr` (`disp` is a Python int in the modelled
  fragment; label-valued displacements come with `lab`, not modelled);
* `slc x pos size sf` — `slc` with `ref = None`;
* `tst t l r size` — the conditional node (its `sf` is never consulted on
  the modelled paths and is left out);
* `op sym prop l r size sf` / `uop sym prop r size sf` — operator nodes with
  their stored (construction-time) `prop` field;
* `vec l size sf` / `vecw l size` — path-merge nodes;
* `err msg` — a raised Python exception propagating out of a construction.
-/
inductive Expr where
  | void (size : Nat)
  | top (size : Nat)
  | cst (v : Nat) (size : Nat) (sf : Bool)
  | reg (ref : String) (size : Nat)
  | comp (size : Nat) (sf : Bool) (parts : List (Rng × Expr))
  | ptr (base : Expr) (seg : Option Expr) (disp : Int) (size : Nat)
  | slc (x : Expr) (pos : Nat) (size : Nat) (sf : Bool)
  | tst (t : Expr) (l : Expr) (r : Expr) (size : Nat)
  | op (sym : String) (prop : Nat) (l : Expr) (r : Expr) (size : Nat) (sf : Bool)
  | uop (sym : String) (prop : Nat) (r : Expr) (size : Nat) (sf : Bool)
  | vec (l : List Expr) (size : Nat) (sf : Bool)
  | vecw (l : List Expr) (size : Nat)
  | err (msg : String)

/-- `e.size` (an `err` stands for a raised exception; its size is never read
in Python, 0 here). -/
def esize : Expr → Nat
  | .void s => s
  | .top s => s
  | .cst _ s _ => s
  | .reg _ s => s
  | .comp s _ _ => s
  | .ptr _ _ _ s => s
  | .slc _ _ s _ => s
  | .tst _ _ _ s => s
  | .op _ _ _ _ s _ => s
  | .uop _ _ _ s _ => s
  | .vec _ s _ => s
  | .vecw _ s => s
  | .err _ => 0

/-- `e.sf` (constructors without a modelled sign flag read as `False`, the
value they carry after `__init__` in Python). -/
def sfOf : Expr → Bool
  | .cst _ _ sf => sf
  | .comp _ sf _ => sf
  | .slc _ _ _ sf => sf
  | .op _ _ _ _ _ sf => sf
  | .uop _ _ _ _ sf => sf
  | .vec _ _ sf => sf
  | _ => false

/-- `e.sf = b` on the constructors that carry the flag (`unsigned()` /
`signed()` and the `_operator.__call__` mutation). -/
def setSf (e : Expr) (b : Bool) : Expr :=
  match e with
  | .cst v s _ => .cst v s b
  | .comp s _ ps => .comp s b ps
  | .slc x p s _ => .slc x p s b
  | .op sym pr l r s _ => .op sym pr l r s b
  | .uop sym pr r s _ => .uop sym pr r s b
  | .vec l s _ => .vec l s b
  | e => e

/-- `e._is_top`: `etype < 0`, true for `top` and for `vecw`. -/
def isTop : Expr → Bool
  | .top _ => true
  | .vecw _ _ => true
  | _ => false

/-- `e._is_def`: `etype > 0`, false for `exp` (void), `top` and `vecw`. -/
def isDef : Expr → Bool
  | .void _ => false
  | .top _ => false
  | .vecw _ _ => false
  | .err _ => false
  | _ => true

def isCst : Expr → Bool
  | .cst _ _ _ => true
  | _ => false

def isReg : Expr → Bool
  | .reg _ _ => true
  | _ => false

def isCmp : Expr → Bool
  | .comp _ _ _ => true
  | _ => false

def isPtr : Expr → Bool
  | .ptr _ _ _ _ => true
  | _ => false

def isSlc : Expr → Bool
  | .slc _ _ _ _ => true
  | _ => false

def isTst : Expr → Bool
  | .tst _ _ _ _ => true
  | _ => false

def isEqn : Expr → Bool
  | .op _ _ _ _ _ _ => true
  | .uop _ _ _ _ _ => true
  | _ => false

/-- `e._is_vec`: true for `vec` and (via its etype) for `vecw`. -/
def isVec : Expr → Bool
  | .vec _ _ _ => true
  | .vecw _ _ => true
  | _ => false

def isErr : Expr → Bool
  | .err _ => true
  | _ => false

/-- `e._is_ext`: the `ext`/`lab` leaves are outside the modelled fragment,
so no modelled expression is an external symbol. -/
def isExt (_ : Expr) : Bool := false

/-- The stored `prop` field of an operator node (`e.prop`). -/
def propOf : Expr → Nat
  | .op _ pr _ _ _ _ => pr
  | .uop _ pr _ _ _ => pr
  | _ => 0

/-- `_operator.__init__`: operator class by symbol — 1 ARITH, 2 LOGIC,
4 CONDT, 8 SHIFT, 0 for an unknown symbol (`NotImplementedError`). -/
def opType (sym : String) : Nat :=
  if sym == "+" || sym == "-" || sym == "*" || sym == "**" || sym == "/" || sym == "%" then 1
  else if sym == "&" || sym == "|" || sym == "^" || sym == "~" then 2
  else if sym == "==" || sym == "!=" || sym == "<=" || sym == ">=" || sym == ">=." ||
          sym == "<" || sym == "<." || sym == ">" then 4
  else if sym == ">>" || sym == "<<" || sym == ".>>" || sym == ">>>" || sym == "<<<" then 8
  else 0

/-- `_operator.unsigned`: true for the LOGIC class and for `>=.`/`<.`. -/
def opUnsigned (sym : String) : Bool :=
  sym == "&" || sym == "|" || sym == "^" || sym == "~" || sym == ">=." || sym == "<."

/-- `_operator.__mul__`: composition of `+`/`-` symbols, `None` otherwise. -/
def opMulSym (a b : String) : Option String :=
  let ss := a ++ b
  if ss == "++" || ss == "--" then some "+"
  else if ss == "+-" || ss == "-+" then some "-"
  else none

/-- The negation table used when `~` is pushed through a comparison
(`eqn1_helpers`). -/
def notTable (sym : String) : String :=
  if sym == "==" then "!="
  else if sym == "!=" then "=="
  else if sym == "<" then ">="
  else if sym == ">" then "<="
  else if sym == "<." then ">=."
  else if sym == ">=." then "<."
  else if sym == "<=" then ">"
  else ">="

/-- `cst.value`: the raw pattern read back as signed/unsigned per `sf`. -/
def cstValue (v : Nat) (size : Nat) (sf : Bool) : Int :=
  if sf && (v >>> (size - 1) == 1) then -((v ^^^ (2 ^ size - 1) : Nat) : Int) - 1 else (v : Int)

/-- `e.value` of a constant expression (0 on other constructors; Python
would raise there). -/
def valueOf : Expr → Int
  | .cst v s sf => cstValue v s sf
  | _ => 0

/-- `cst.__init__` for an int argument: `sf` is set from the sign and the
raw pattern is masked. -/
def cstMk (x : Int) (s : Nat) : Expr :=
  .cst ((x % ((2 : Int) ^ s)).toNat) s (decide (x < 0))

/-- `cst.__init__` for a bool argument (forces size 1). -/
def cstB (b : Bool) : Expr := .cst (if b then 1 else 0) 1 false

/-- `bit0 = cst(0,1)`. -/
def bit0 : Expr := cstB false

/-- `bit1 = cst(1,1)`. -/
def bit1 : Expr := cstB true

/-- `cst((~v) & mask, size)`: the raw pattern of `cst.__invert__`. -/
def notMask (v : Nat) (s : Nat) : Nat :=
  (((-(v : Int) - 1)) % ((2 : Int) ^ s)).toNat

/-- `int.bit_length` (kernel-computable: the fuel bounds the halvings). -/
def bitLenGo : Nat → Nat → Nat
  | 0, _ => 0
  | f + 1, n => if n == 0 then 0 else bitLenGo f (n / 2) + 1

def bitLen (n : Nat) : Nat := bitLenGo n n

/-- `get_lsb_msb(v)` for a positive value: `v & -v` isolates the lowest set
bit (as `(v & (v-1)) ^ v` on naturals). -/
def getLsbMsb (v : Nat) : Nat × Nat :=
  (bitLen ((v &&& (v - 1)) ^^^ v) - 1, bitLen v - 1)

/-- `ismask(v)` on the signed `value` of a constant: for `v ≤ 0` the test of
the source is never satisfied (a negative `v` cannot equal the nonnegative
mask pattern, and `v == 0` is only reached after the `value == 0` branch has
returned). -/
def ismaskI (x : Int) : Bool :=
  if x ≤ 0 then false
  else
    let v := x.toNat
    let lm := getLsbMsb v
    ((2 ^ (lm.2 + 1) - 1) ^^^ (2 ^ lm.1 - 1)) == v

/-- Python code-point comparison `a < b` on strings (used for the lexical
ordering of symbol strings in `op.simplify`). -/
def charsLt : List Char → List Char → Bool
  | [], [] => false
  | [], _ :: _ => true
  | _ :: _, [] => false
  | a :: as, b :: bs => if a.val < b.val then true else if b.val < a.val then false else charsLt as bs

def strLt (a b : String) : Bool := charsLt a.data b.data

/-- `"{:#x}".format(value)`: Python signed hexadecimal rendering of an int. -/
def pyHex (x : Int) : String :=
  if x < 0 then "-0x" ++ (Nat.toDigits 16 x.natAbs).asString
  else "0x" ++ (Nat.toDigits 16 x.toNat).asString

/-- `"%+d" % disp`: Python add-sign decimal rendering. -/
def pySignedDec (x : Int) : String :=
  if x < 0 then "-" ++ toString x.natAbs else "+" ++ toString x.toNat

/-- Sorting of parts keys by start bit (`part.sort(key=itemgetter(0))`). -/
def insortP (x : Rng × Expr) : List (Rng × Expr) → List (Rng × Expr)
  | [] => [x]
  | y :: ys => if Nat.ble x.1.1 y.1.1 then x :: y :: ys else y :: insortP x ys

def sortParts (ps : List (Rng × Expr)) : List (Rng × Expr) :=
  ps.foldr insortP []

mutual

/-- `__unicode__`/`__str__`: the canonical printed form.  The rendering
icons come from `amoco/ui/render.py` which is not among the sources;
modelled from the spec ("every node exposes a canonical display string"):
`icons.top`/`icons.bot` are printed as the circled letters T/B, `icons.dots`
as three dots, and `icons.op(symbol)` as the symbol itself.  `comp.__str__`
walks the parts by ascending position (the parts lists are maintained in
that order); its `__iter__` assertion of contiguity is not reproduced:
parts are printed with their own keys, which coincides on every comp whose
parts partition the range. -/
def toStr : Expr → String
  | .void s => "(B)" ++ toString s
  | .top s => "(T)" ++ toString s
  | .cst v s sf => pyHex (cstValue v s sf)
  | .reg r _ => r
  | .comp _ _ ps => "\x7b |" ++ strParts ps ++ " \x7d"
  | .ptr b sg d _ =>
      (match sg with | none => "" | some s => toStr s) ++ "(" ++ toStr b ++
        (if d == 0 then "" else pySignedDec d) ++ ")"
  | .slc x p s _ => toStr x ++ "[" ++ toString p ++ ":" ++ toString (p + s) ++ "]"
  | .tst t l r _ => "(" ++ toStr t ++ " ? " ++ toStr l ++ " : " ++ toStr r ++ ")"
  | .op sym _ l r _ _ => "(" ++ toStr l ++ sym ++ toStr r ++ ")"
  | .uop sym _ r _ _ => "(" ++ sym ++ toStr r ++ ")"
  | .vec l _ _ => "[" ++ strJoin l ++ "]"
  | .vecw l _ => "[" ++ strJoin l ++ ", ...]"
  | .err m => "!err:" ++ m

def strParts : List (Rng × Expr) → String
  | [] => ""
  | (k, e) :: ps =>
      " [" ++ toString k.1 ++ ":" ++ toString k.2 ++ "]->" ++ toStr e ++ " |" ++ strParts ps

def strJoin : List Expr → String
  | [] => ""
  | [e] => toStr e
  | e :: es => toStr e ++ "," ++ strJoin es

end

/-- The hash key of an expression.  `exp.__hash__` is `hash(str(self)) +
self.size` while `slc.__hash__` is `hash(self.raw())`; equality of Python
hashes is modelled as equality of these keys (hash collisions between
different strings are assumed not to occur). -/
inductive HK where
  | plain (s : String) (size : Nat)
  | slch (raw : String)
deriving DecidableEq

def hkey : Expr → HK
  | .slc x p s _ => .slch (toStr x ++ "[" ++ toString p ++ ":" ++ toString (p + s) ++ "]")
  | e => .plain (toStr e) (esize e)

mutual

/-- `symbols_of(e)`: the register leaves contained in `e`, as their printed
names (`reg.__str__` is the ref name), in the left-to-right order the
Python list concatenation produces.  `uop.l` is `None`, contributing `[]`. -/
def symbolsOf : Expr → List String
  | .cst _ _ _ => []
  | .reg r _ => [r]
  | .ptr b _ _ _ => symbolsOf b
  | .op _ _ l r _ _ => symbolsOf l ++ symbolsOf r
  | .uop _ _ r _ _ => symbolsOf r
  | .tst t l r _ => symbolsOf t ++ symbolsOf l ++ symbolsOf r
  | .slc x _ _ _ => symbolsOf x
  | .comp _ _ ps => symbolsParts ps
  | .vec l _ _ => symbolsList l
  | .vecw l _ => symbolsList l
  | _ => []

def symbolsList : List Expr → List String
  | [] => []
  | e :: es => symbolsOf e ++ symbolsList es

def symbolsParts : List (Rng × Expr) → List String
  | [] => []
  | (_, e) :: ps => symbolsOf e ++ symbolsParts ps

end

mutual

/-- `e.depth()`: `exp` leaves count 1, `top` (and `vecw`, a `top` subclass)
is infinite (`none`), `slc` doubles, `tst` averages over 3, operators add,
`comp` sums its parts and `vec` multiplies the member maximum by the member
count (0 for the empty vector). -/
def depthE : Expr → Option PQ
  | .top _ => none
  | .vecw _ _ => none
  | .comp _ _ ps => depthParts ps
  | .slc x _ _ _ => oMulN (depthE x) 2
  | .tst t l r _ => oDiv3 (oAdd (oAdd (depthE t) (depthE l)) (depthE r))
  | .op _ _ l r _ _ => oAdd (depthE l) (depthE r)
  | .uop _ _ r _ _ => depthE r
  | .vec l s _ =>
      if s == 0 then some ⟨0, 0⟩
      else oMulN (depthMax l) l.length
  | _ => some ⟨1, 0⟩

def depthList : List Expr → Option PQ
  | [] => some ⟨0, 0⟩
  | e :: es => oAdd (depthE e) (depthList es)

def depthParts : List (Rng × Expr) → Option PQ
  | [] => some ⟨0, 0⟩
  | (_, e) :: ps => oAdd (depthE e) (depthParts ps)

def depthMax : List Expr → Option PQ
  | [] => some ⟨0, 0⟩
  | [e] => depthE e
  | e :: es => oMax (depthE e) (depthMax es)

end

/-- `complexity(e) = (e.depth() + len(symbols_of(e))) * factor` with
`factor = e.prop` for operator nodes and 1 otherwise. -/
def complexityE (e : Expr) : Option PQ :=
  oMulN (oAdd (depthE e) (some ⟨(symbolsOf e).length, 0⟩)) (if isEqn e then propOf e else 1)

mutual

/-- Boolean coercion `bool(e)`: `cst.__bool__` is true exactly when `size
== 1 and v == 1`; `vec.__bool__` is the conjunction over the members; every
other class inherits `exp.__bool__` (false; `vecw` subclasses `top`, not
`vec`). -/
def exprBool : Expr → Bool
  | .cst v s _ => s == 1 && v == 1
  | .vec l _ _ => exprBoolList l
  | _ => false

def exprBoolList : List Expr → Bool
  | [] => true
  | e :: es => exprBool e && exprBoolList es

end

/-- Dictionary lookup in a parts map. -/
def getPart (ps : List (Rng × Expr)) (k : Rng) : Option Expr :=
  match ps.find? (fun p => p.1 == k) with
  | some p => some p.2
  | none => none

/-- Dictionary removal. -/
def popPart (ps : List (Rng × Expr)) (k : Rng) : List (Rng × Expr) :=
  ps.filter (fun p => p.1 != k)

/-- Dictionary update.  The parts lists are maintained in ascending key
order throughout (a refinement of the Python dict plus its `smask` index:
every consumer either sorts the keys or is order-independent), so a new key
is inserted at its sorted position. -/
def putPart (ps : List (Rng × Expr)) (k : Rng) (v : Expr) : List (Rng × Expr) :=
  match ps with
  | [] => [(k, v)]
  | p :: rest => if p.1 == k then (k, v) :: rest else p :: putPart rest k v

def addPart (ps : List (Rng × Expr)) (k : Rng) (v : Expr) : List (Rng × Expr) :=
  match getPart ps k with
  | some _ => putPart ps k v
  | none => insortP (k, v) ps

/-- One scan of `comp.restruct`: find the first pair of ranges adjacent in
ascending order that merges — two constants fold into one wider constant
with the lower range in the low bits, two undefined parts fold into one
`top` of the combined range width. -/
def mergeFind : List (Rng × Expr) → Option (Rng × Rng × (Rng × Expr))
  | (ra, na) :: (rb, nb) :: rest =>
      if ra.2 == rb.1 then
        match na, nb with
        | .cst va sa _, .cst vb sb _ =>
            some (ra, rb, ((ra.1, rb.2), cstMk (((vb <<< sa) ||| va : Nat) : Int) (sa + sb)))
        | _, _ =>
            if !(isDef na) && !(isDef nb) then
              some (ra, rb, ((ra.1, rb.2), .top (rb.2 - ra.1)))
            else mergeFind ((rb, nb) :: rest)
      else mergeFind ((rb, nb) :: rest)
  | _ => none

def restructGo : Nat → List (Rng × Expr) → List (Rng × Expr)
  | 0, ps => ps
  | fuel + 1, ps =>
      match mergeFind (sortParts ps) with
      | none => ps
      | some (ka, kb, kv) => restructGo fuel (putPart (popPart (popPart ps ka) kb) kv.1 kv.2)

/-- `comp.restruct`: repeat the merge scan until no merge applies (each
merge removes one part, so the part count bounds the recursion). -/
def restruct (ps : List (Rng × Expr)) : List (Rng × Expr) :=
  restructGo ps.length ps

/-- `vec.__init__`: width is the maximum member width; construction fails
(`ValueError`) if the members are not uniform; `sf` is the disjunction. -/
def vecMk (l : List Expr) : Expr :=
  if l.any isErr then .err "vec member" else
  let size := l.foldl (fun acc e => max acc (esize e)) 0
  if l.any (fun e => esize e != size) then .err "vec size mismatch"
  else .vec l size (l.any sfOf)

/-- `vecw.__init__` from a `vec` value. -/
def vecwMk (v : Expr) : Expr :=
  match v with
  | .vec l s _ => .vecw l s
  | _ => .err "vecw"

/-- `tst.__new__` + `tst.__init__`: a 1-bit constant condition of value 1
returns the true branch itself and of value 0 the false branch; otherwise a
node is built, after the equal-width check. -/
def tstMk (t l r : Expr) : Expr :=
  if isErr t || isErr l || isErr r then .err "tst operand" else
  if isCst t && esize t == 1 && valueOf t == 1 then l
  else if isCst t && esize t == 1 && valueOf t == 0 then r
  else if esize l != esize r then .err "tst size mismatch"
  else .tst t l r (esize l)

/-- `op.__init__`: class typing, the strict size check of arithmetic/logic
operands, the derived width (1 for comparisons, doubled for `**`), the sign
flag, and the `prop` field accumulating the operand classes. -/
def opInit (sym : String) (l r : Expr) : Expr :=
  if isErr l || isErr r then .err "op operand" else
  let t := opType sym
  if t == 0 then .err "NotImplementedError" else
  if t < 4 && esize l != esize r then .err "op size mismatch" else
  let size0 := esize l
  let size := if t == 4 then 1 else if sym == "**" then 2 * size0 else size0
  let sf := if t == 1 then sfOf l || sfOf r else sfOf l
  let prop := t ||| (if isEqn l then propOf l else 0) ||| (if isEqn r then propOf r else 0)
  .op sym prop l r size sf

/-- `uop.__init__`. -/
def uopInit (sym : String) (r : Expr) : Expr :=
  if isErr r then .err "uop operand" else
  let t := opType sym
  if t == 0 then .err "NotImplementedError" else
  let prop := t ||| (if isEqn r then propOf r else 0)
  .uop sym prop r (esize r) (sfOf r)

/-- `cst` built from an already nonnegative raw pattern (`sf` comes out
false, the pattern is masked by the constructor). -/
def cstMkN (v : Nat) (s : Nat) : Expr := .cst (v % 2 ^ s) s false

/-- The member list of a `vec`/`vecw` node (`e.l`). -/
def vecList : Expr → List Expr
  | .vec l _ _ => l
  | .vecw l _ => l
  | _ => []

/-- The owner of a bit in a parts map — the reading of the `smask` index
(`smask[b]` is the key of the part covering bit `b`). -/
def findOwner (ps : List (Rng × Expr)) (bit : Nat) : Option (Rng × Expr) :=
  ps.find? (fun p => p.1.1 ≤ bit && bit < p.1.2)

/-- `comp.cut`: every part spanning over the bounds of `[a,b)` is split at
the bounds (its fragments sliced out with the checked `__getitem__` given
as `gi`) and its covered portion removed. -/
def cutParts (gi : Expr → Int → Int → Expr) (ps : List (Rng × Expr)) (a b : Nat) :
    Except String (List (Rng × Expr)) :=
  let over := ps.filter (fun p => p.1.1 < b && a < p.1.2)
  over.foldlM
    (fun acc (p : Rng × Expr) => do
      let acc := popPart acc p.1
      let acc ← if p.1.1 < a then do
          let frag := gi p.2 0 ((a : Int) - (p.1.1 : Int))
          if isErr frag then throw "cut fragment" else pure (addPart acc (p.1.1, a) frag)
        else pure acc
      if b < p.1.2 then do
        let frag := gi p.2 ((b : Int) - (p.1.1 : Int)) ((p.1.2 : Int) - (p.1.1 : Int))
        if isErr frag then throw "cut fragment" else pure (addPart acc (b, p.1.2) frag)
      else pure acc)
    ps

/-- The bit-walking loop of `comp.__getitem__`: from bit `cur`, slice the
owning part proportionally and write it into the result at `b`, skipping
unowned bits; `b` and `cur` advance together.  The loop variable `start` of
the source is `cur`; its final value is returned with the accumulated
parts.  The fuel is the number of bits to walk (each Python iteration
advances by at least one bit on well-formed parts). -/
def compWalk (gi : Expr → Int → Int → Expr)
    (si : List (Rng × Expr) → Nat → Int → Int → Expr → Except String (List (Rng × Expr)))
    (src : List (Rng × Expr)) (stop : Nat) (l : Nat) :
    Nat → Nat → Nat → List (Rng × Expr) → Except String (List (Rng × Expr) × Nat)
  | 0, _, cur, acc => .ok (acc, cur)
  | fuel + 1, b, cur, acc =>
      if l ≤ b then .ok (acc, cur)
      else
        match findOwner src cur with
        | none => compWalk gi si src stop l fuel (b + 1) (cur + 1) acc
        | some (k, s) =>
            let deb := cur - k.1
            let fin := min k.2 stop - k.1
            let d := fin - deb
            let v := gi s (deb : Int) (fin : Int)
            match si acc l (b : Int) ((b + d : Nat) : Int) v with
            | .error m => .error m
            | .ok acc2 => compWalk gi si src stop l fuel (b + d) (cur + d) acc2

/-- The mutually recursive operation/simplification engine.  Each Python
method becomes a field; every recursive call goes through the previous fuel
level `prev`, and fuel exhaustion surfaces as an inert value (`simp`
returns its input, builders return an `err`).  The threshold `T` models the
global `conf.Cas.complexity` (0 = disabled). -/
structure Interp where
  simp : Bool → Bool → Expr → Expr
  oper : String → Expr → Option Expr → Expr
  binop : String → Expr → Expr → Expr
  neg : Expr → Expr
  inv : Expr → Expr
  opCall : String → Expr → Option Expr → Expr
  unary : String → Expr → Expr
  eqn2 : Bool → Bool → String → Nat → Expr → Expr → Nat → Bool → Expr
  eqn1 : Bool → Bool → String → Nat → Expr → Nat → Bool → Expr
  getit : Expr → Int → Int → Expr
  slicer : Expr → Nat → Nat → Expr
  slcMk : Expr → Nat → Nat → Expr
  setit : List (Rng × Expr) → Nat → Int → Int → Expr → Except String (List (Rng × Expr))
  getitC : Nat → Bool → List (Rng × Expr) → Nat → Nat → Expr
  compSimp : Bool → Bool → Nat → Bool → List (Rng × Expr) → Expr
  ptrMk : Expr → Option Expr → Int → Expr
  extOff : Expr → Except String (Expr × Int)
  ptrSimp : Bool → Bool → Expr → Option Expr → Int → Nat → Expr
  vecSimp : Bool → Bool → List Expr → Nat → Bool → Expr
  tstSimp : Bool → Bool → Expr → Expr → Expr → Nat → Expr
  slcSimp : Bool → Bool → Expr → Nat → Nat → Bool → Expr
  opSimp : Bool → Bool → String → Nat → Expr → Expr → Nat → Bool → Expr
  uopSimp : Bool → Bool → String → Nat → Expr → Nat → Bool → Expr
  expEq : Expr → Expr → Expr
  composer : List Expr → Expr
  geu : Expr → Expr → Expr
  ltu : Expr → Expr → Expr
  ror : Expr → Expr → Expr
  rol : Expr → Expr → Expr
  vecHas : List Expr → Expr → Bool

/-- Fuel exhaustion: inert values. -/
def baseI : Interp where
  simp := fun _ _ e => e
  oper := fun _ _ _ => .err "fuel"
  binop := fun _ _ _ => .err "fuel"
  neg := fun _ => .err "fuel"
  inv := fun _ => .err "fuel"
  opCall := fun _ _ _ => .err "fuel"
  unary := fun _ _ => .err "fuel"
  eqn2 := fun _ _ _ _ _ _ _ _ => .err "fuel"
  eqn1 := fun _ _ _ _ _ _ _ => .err "fuel"
  getit := fun _ _ _ => .err "fuel"
  slicer := fun _ _ _ => .err "fuel"
  slcMk := fun _ _ _ => .err "fuel"
  setit := fun _ _ _ _ _ => .error "fuel"
  getitC := fun _ _ _ _ _ => .err "fuel"
  compSimp := fun _ _ _ _ _ => .err "fuel"
  ptrMk := fun _ _ _ => .err "fuel"
  extOff := fun _ => .error "fuel"
  ptrSimp := fun _ _ _ _ _ _ => .err "fuel"
  vecSimp := fun _ _ _ _ _ => .err "fuel"
  tstSimp := fun _ _ _ _ _ _ => .err "fuel"
  slcSimp := fun _ _ _ _ _ _ => .err "fuel"
  opSimp := fun _ _ _ _ _ _ _ _ => .err "fuel"
  uopSimp := fun _ _ _ _ _ _ _ => .err "fuel"
  expEq := fun _ _ => .err "fuel"
  composer := fun _ => .err "fuel"
  geu := fun _ _ => .err "fuel"
  ltu := fun _ _ => .err "fuel"
  ror := fun _ _ => .err "fuel"
  rol := fun _ _ => .err "fuel"
  vecHas := fun _ _ => false

/-- The comparison result returned by `exp.__eq__`/`__ne__`/`__lt__`/
`__le__`/`__ge__`/`__gt__` when the hashes of the two sides agree. -/
def hashHit (sym : String) : Expr :=
  if sym == "==" || sym == "<=" || sym == ">=" then bit1 else bit0

/-- The dispatch body of `__getitem__` once `_checkarg_slice` has passed:
`cst` slices its pattern, `comp` walks its parts, `slc` re-slices its
carrier, `vec`/`vecw` distribute over their members, and every other class
uses the base `exp.__getitem__`, i.e. `slicer`. -/
def getitBody (prev : Interp) (e : Expr) (sta sto : Int) : Expr :=
  let a := sta.toNat
  let b := sto.toNat
  match e with
  | .cst v _ _ => cstMkN (v >>> a) (b - a)
  | .comp s sf ps => prev.getitC s sf ps a b
  | .slc x p sz _ => if a == 0 && b == sz then e else prev.slicer x (p + a) (b - a)
  | .vec l _ _ => vecMk (l.map (fun m => prev.getit m sta sto))
  | .vecw l _ =>
      (match vecMk (l.map (fun m => prev.getit m sta sto)) with
       | .vec l2 s2 _ => .vecw l2 s2
       | e2 => e2)
  | _ => prev.slicer e a (b - a)

/-!
The bodies of the engine methods, one top-level definition per Python
method, each a line-by-line transcription; `prev` ties the recursion to the
previous fuel level and `T` models `conf.Cas.complexity`.
-/

-- `exp.simplify` dispatch: classes without an override return themselves.
def simpB (prev : Interp) : Bool → Bool → Expr → Expr :=
  fun bs wd e =>
    match e with
    | .comp s sf ps => prev.compSimp bs wd s sf ps
    | .ptr b sg d s => prev.ptrSimp bs wd b sg d s
    | .slc x p s sf => prev.slcSimp bs wd x p s sf
    | .tst t l r s => prev.tstSimp bs wd t l r s
    | .op sym pr l r s sf => prev.opSimp bs wd sym pr l r s sf
    | .uop sym pr r s sf => prev.uopSimp bs wd sym pr r s sf
    | .vec l s sf => prev.vecSimp bs wd l s sf
    | e => e

-- `oper(opsym, l, r=None)`: build the node and simplify with default
-- keyword arguments.
def operB (prev : Interp) : String → Expr → Option Expr → Expr :=
  fun sym l r0 =>
    match r0 with
    | none =>
        match uopInit sym l with
        | .uop s p r sz sf => prev.uopSimp false false s p r sz sf
        | e => e
    | some r =>
        match opInit sym l r with
        | .op s p ll rr sz sf => prev.opSimp false false s p ll rr sz sf
        | e => e

-- The Python binary entry points `a.__add__(b)` … dispatched by the
-- class of the receiver: `cst` folds constant operands (with the
-- `_checkarg_sizes` check, exempting width 0) and falls back to the
-- `exp` method otherwise; the base methods build an operator node, the
-- comparisons after the same-hash shortcut.
def binopB (prev : Interp) : String → Expr → Expr → Expr :=
  fun sym a b =>
    if isErr a || isErr b then .err "operand" else
    match a with
    | .cst va sa sfa =>
        let szOK : Bool := sa == esize b || sa == 0 || esize b == 0
        let isCmpSym : Bool :=
          sym == "==" || sym == "!=" || sym == "<" || sym == "<=" || sym == ">=" || sym == ">"
        let needSz : Bool :=
          sym == "+" || sym == "-" || sym == "*" || sym == "**" || sym == "&" ||
          sym == "|" || sym == "^" || isCmpSym
        if needSz && !szOK then .err "size mismatch" else
        match b with
        | .cst vb sb sfb =>
            let xa := cstValue va sa sfa
            let xb := cstValue vb sb sfb
            if sym == "+" then cstMk (xa + xb) sa
            else if sym == "-" then cstMk (xa - xb) sa
            else if sym == "*" then cstMk (xa * xb) sa
            else if sym == "**" then cstMk (xa * xb) (2 * sa)
            else if sym == "/" then
              if xb == 0 then .err "ZeroDivisionError" else cstMk (Int.fdiv xa xb) sa
            else if sym == "%" then
              if xb == 0 then .err "ZeroDivisionError" else cstMk (Int.fmod xa xb) sa
            else if sym == "&" then cstMkN (va &&& vb) sa
            else if sym == "|" then cstMkN (va ||| vb) sa
            else if sym == "^" then cstMkN (va ^^^ vb) sa
            else if sym == "<<" then
              if xb < 0 then .err "negative shift" else cstMk (xa * 2 ^ xb.toNat) sa
            else if sym == ">>" then
              -- `cst.__rshift__` clears `self.sf` first, so the shifted
              -- value is the raw pattern.
              if xb < 0 then .err "negative shift" else cstMkN (va >>> xb.toNat) sa
            else if sym == ".>>" then
              -- `cst.__floordiv__` sets `self.sf`, so the shifted value is
              -- the signed reading.
              if xb < 0 then .err "negative shift"
              else cstMk (Int.fdiv (cstValue va sa true) (2 ^ xb.toNat)) sa
            else if sym == "==" then cstB (va == vb)
            else if sym == "!=" then cstB (va != vb)
            else if sym == "<" then cstB (xa < xb)
            else if sym == "<=" then cstB (xa ≤ xb)
            else if sym == ">=" then cstB (xb ≤ xa)
            else if sym == ">" then cstB (xb < xa)
            else prev.oper sym a (some b)
        | _ =>
            if isCmpSym then
              if hkey a == hkey b then hashHit sym else prev.oper sym a (some b)
            else prev.oper sym a (some b)
    | _ =>
        let isCmpSym : Bool :=
          sym == "==" || sym == "!=" || sym == "<" || sym == "<=" || sym == ">=" || sym == ">"
        if isCmpSym then
          if hkey a == hkey b then hashHit sym else prev.oper sym a (some b)
        else prev.oper sym a (some b)

-- `-a`: `cst.__neg__` folds, everything else builds a unary node.
def negB (prev : Interp) : Expr → Expr :=
  fun a =>
    match a with
    | .cst v s sf => cstMk (-(cstValue v s sf)) s
    | .err m => .err m
    | _ => prev.oper "-" a none

-- `~a`.
def invB (prev : Interp) : Expr → Expr :=
  fun a =>
    match a with
    | .cst v s _ => .cst (notMask v s) s false
    | .err m => .err m
    | _ => prev.oper "~" a none

-- `_operator.__call__` for a binary operator: the unsigned classes clear
-- both operands' sign flags, then the implementation is dispatched
-- (`>=.`/`<.` and the rotations have function implementations).
def opCallB (prev : Interp) : String → Expr → Option Expr → Expr :=
  fun sym l r0 =>
    match r0 with
    | none => .err "AssertionError"
    | some r =>
        let l := if opUnsigned sym then setSf l false else l
        let r := if opUnsigned sym then setSf r false else r
        if sym == ">=." then prev.geu l r
        else if sym == "<." then prev.ltu l r
        else if sym == ">>>" then prev.ror l r
        else if sym == "<<<" then prev.rol l r
        else prev.binop sym l r

-- `_operator.__call__` for a unary operator.
def unaryB (prev : Interp) : String → Expr → Expr :=
  fun sym r =>
    let r := if opUnsigned sym then setSf r false else r
    if sym == "+" then r
    else if sym == "-" then prev.neg r
    else if sym == "~" then prev.inv r
    else .err "unary impl"

-- `eqn2_helpers`.
def eqn2B (T : Nat) (prev : Interp) : Bool → Bool → String → Nat → Expr → Expr → Nat → Bool → Expr :=
  fun bs wd sym prop l r size sf =>
    let r := if 0 < T && oGtN (complexityE r) T then .top (esize r) else r
    let l := if 0 < T && oGtN (complexityE l) T then .top (esize l) else l
    if isTop r || isTop l then .top size
    else
      -- ((a lop cst) sym r) with binary lop composable with sym:
      -- move the constant right: ((a sym r) lop cst).
      let st1 : String × Expr × Expr :=
        match l with
        | .op ls _ ll lr _ _ =>
            if isCst lr then
              match opMulSym sym ls with
              | some _ => (ls, prev.opCall sym ll (some r), lr)
              | none => (sym, l, r)
            else (sym, l, r)
        | _ => (sym, l, r)
      let sym := st1.1
      let l := st1.2.1
      let r := st1.2.2
      -- (l + (-x)) becomes (l - x).
      let st2 : String × Expr :=
        match r with
        | .uop rs _ rr _ _ => if sym == "+" && rs == "-" then ("-", rr) else (sym, r)
        | _ => (sym, r)
      let sym := st2.1
      let r := st2.2
      -- (l [+-] (a [+-] cst)) becomes ((l [+-] a) xop cst); a unary
      -- operand on the right makes `e.r.l` None and the dispatcher fail.
      let st3 : String × Expr × Expr :=
        match r with
        | .op rs _ rl rr _ _ =>
            if isCst rr then
              match opMulSym sym rs with
              | some x => (x, prev.opCall sym l (some rl), rr)
              | none => (sym, l, r)
            else (sym, l, r)
        | .uop rs _ rr _ _ =>
            if isCst rr then
              match opMulSym sym rs with
              | some x => (x, prev.opCall sym l none, rr)
              | none => (sym, l, r)
            else (sym, l, r)
        | _ => (sym, l, r)
      let sym := st3.1
      let l := st3.2.1
      let r := st3.2.2
      let node := Expr.op sym prop l r size sf
      -- blocks after the constant-on-the-right chain: the vec
      -- distributions and the equal-prints collapses, then `return e`.
      let tail : Unit → Expr := fun _ =>
        if isVec l then
          match vecMk ((vecList l).map (fun x => prev.opCall sym x (some r))) with
          | .vec l2 s2 sf2 => prev.vecSimp false wd l2 s2 sf2
          | e2 => e2
        else if isVec r then
          match vecMk ((vecList r).map (fun x => prev.opCall sym l (some x))) with
          | .vec l2 s2 sf2 => prev.vecSimp false wd l2 s2 sf2
          | e2 => e2
        else if toStr l == toStr r then
          if sym == "!=" || sym == "<" || sym == ">" then bit0
          else if sym == "==" || sym == "<=" || sym == ">=" then bit1
          else if sym == "-" then cstMkN 0 size
          else if sym == "^" then cstMkN 0 size
          else if sym == "&" then l
          else if sym == "|" then l
          else node
        else node
      if isCst r then
        let va := valueOf r
        let hit : Option Expr :=
          if va == 0 then
            if sym == "|" || sym == "^" || sym == "+" || sym == "-" || sym == ">>" ||
               sym == "<<" || sym == ">>>" || sym == "<<<" then some l
            else if sym == "&" || sym == "*" || sym == "**" then some (cstMkN 0 size)
            else if sym == "==" && isExt l then some bit0
            else if sym == "!=" && isExt l then some bit1
            else none
          else if va == 1 && (sym == "*" || sym == "**" || sym == "/") then some l
          else if sym == "&" && ismaskI va then
            -- (l & mask) becomes a comp exposing bits [i1, i2].
            let lm := getLsbMsb va.toNat
            some (match prev.setit [] size 0 (size : Int) (cstMkN 0 size) with
              | .error m => .err m
              | .ok c1 =>
                  match prev.setit c1 size (lm.1 : Int) ((lm.2 + 1 : Nat) : Int)
                      (prev.getit l (lm.1 : Int) ((lm.2 + 1 : Nat) : Int)) with
                  | .error m => .err m
                  | .ok c2 => prev.compSimp false false size false c2)
          else if bs && (sym == "&" || sym == "|" || sym == "^") then
            some (prev.composer ((List.range size).map (fun i =>
              prev.opCall sym (prev.getit l (i : Int) ((i : Int) + 1))
                (some (prev.getit r (i : Int) ((i : Int) + 1))))))
          else if bs && sym == "<<" then
            some (prev.composer (List.replicate va.toNat bit0 ++
              (List.range ((size : Int) - va).toNat).map (fun i =>
                prev.getit l (i : Int) ((i : Int) + 1))))
          else if bs && sym == ">>" then
            some (prev.composer ((List.range ((size : Int) - va).toNat).map (fun j =>
                prev.getit l (va + (j : Int)) (va + (j : Int) + 1)) ++
              List.replicate va.toNat bit0))
          else if sym == "<<" || sym == ">>" then
            -- (l shift cst) becomes a zero-filled comp.
            let lsz := esize l
            some (match prev.setit [] lsz 0 (lsz : Int) (cstMkN 0 lsz) with
              | .error m => .err m
              | .ok c1 =>
                  let c2r : Except String (List (Rng × Expr)) :=
                    if va < (lsz : Int) then
                      if sym == "<<" then
                        prev.setit c1 lsz va (lsz : Int) (prev.getit l 0 ((lsz : Int) - va))
                      else
                        prev.setit c1 lsz 0 ((lsz : Int) - va) (prev.getit l va (lsz : Int))
                    else .ok c1
                  match c2r with
                  | .error m => .err m
                  | .ok c2 => prev.compSimp false false lsz false c2)
          else none
        match hit with
        | some x => x
        | none =>
            -- `if e.l._is_eqn: … elif e.l._is_ptr: … elif e.l._is_cmp:
            -- … elif e.l._is_cst: …`
            match l with
            | .op ls _ ll lr _ _ =>
                (match opMulSym sym ls with
                 | some x =>
                     if isCst lr then .op ls prop ll (prev.binop x lr r) size sf
                     else node
                 | none =>
                     if esize r == 1 then
                       if sym == "==" then (if va == 1 then l else prev.inv l)
                       else if sym == "!=" then prev.inv l
                       else tail ()
                     else tail ())
            | .uop ls _ lr _ _ =>
                (match opMulSym sym ls with
                 | some x =>
                     if isCst lr then .op ls prop l (prev.binop x lr r) size sf
                     else node
                 | none =>
                     if esize r == 1 then
                       if sym == "==" then (if va == 1 then l else prev.inv l)
                       else if sym == "!=" then prev.inv l
                       else tail ()
                     else tail ())
            | .ptr _ _ _ _ =>
                if sym == "-" || sym == "+" then
                  prev.ptrMk l none (if sym == "+" then va else -va)
                else tail ()
            | .comp csz _ cps =>
                if sym == "&" || sym == "|" || sym == "^" then
                  match cps.foldlM (fun acc (p : Rng × Expr) =>
                      prev.setit acc csz (p.1.1 : Int) (p.1.2 : Int)
                        (prev.opCall sym p.2 (some (prev.getit r (p.1.1 : Int) (p.1.2 : Int)))))
                      ([] : List (Rng × Expr)) with
                  | .error m => .err m
                  | .ok cc => prev.compSimp bs false csz false cc
                else tail ()
            | .cst _ _ _ => prev.opCall sym l (some r)
            | _ => tail ()
      else tail ()

-- `eqn1_helpers`.
def eqn1B (prev : Interp) : Bool → Bool → String → Nat → Expr → Nat → Bool → Expr :=
  fun _ _ sym prop r size sf =>
    if isCst r then prev.unary sym r
    else if isVec r then vecMk ((vecList r).map (fun x => prev.unary sym x))
    else
      match r with
      | .uop rs _ rr _ _ =>
          (match opMulSym sym rs with
           | some x => if x == "+" then rr else prev.neg rr
           | none => .uop sym prop r size sf)
      | .op rs _ rl rr _ _ =>
          if sym == "-" && (rs == "-" || rs == "+") then
            prev.binop (if rs == "-" then "+" else "-") (prev.neg rl) rr
          else if sym == "~" && opType rs == 4 then
            let ns := notTable rs
            if ns == ">=." then prev.geu rl rr
            else if ns == "<." then prev.ltu rl rr
            else prev.binop ns rl rr
          else .uop sym prop r size sf
      | _ => .uop sym prop r size sf

-- `exp.__getitem__` and its overrides, behind `_checkarg_slice`.
def getitB (prev : Interp) : Expr → Int → Int → Expr :=
  fun e sta sto =>
    if isErr e then e
    else if sta < 0 || sto > (esize e : Int) then .err "bounds"
    else if sto ≤ sta then .err "invalid slice"
    else getitBody prev e sta sto

-- `slicer(x, pos, size)`.
def slicerB (prev : Interp) : Expr → Nat → Nat → Expr :=
  fun x pos size =>
    if isErr x then x
    else if !(isDef x) then .top size
    else if pos == 0 && size == esize x then x
    else
      match x with
      | .comp _ _ _ => setSf (prev.getit x (pos : Int) ((pos + size : Nat) : Int)) (sfOf x)
      | _ => prev.slcMk x pos size

-- `slc.__init__` with `ref=None`: slicing a slice rewrites to a slice of
-- the carrier's carrier.
def slcMkB (prev : Interp) : Expr → Nat → Nat → Expr :=
  fun x pos size =>
    let sf := sfOf x
    match x with
    | .slc _ _ _ _ =>
        (match prev.getit x (pos : Int) ((pos + size : Nat) : Int) with
         | .slc xx pp _ _ => .slc xx pp size sf
         | .err m => .err m
         | _ => .err "AttributeError")
    | .err m => .err m
    | _ => .slc x pos size sf

-- `comp.__setitem__` behind `_checkarg_slice`: a comp value is
-- flattened recursively, otherwise the value is stored and overlapping
-- parts are cut.
def setitB (prev : Interp) : List (Rng × Expr) → Nat → Int → Int → Expr → Except String (List (Rng × Expr)) :=
  fun ps csize sta sto v =>
    if sta < 0 || sto > (csize : Int) then .error "bounds"
    else if sto ≤ sta then .error "invalid slice"
    else
      let a := sta.toNat
      let b := sto.toNat
      if esize v != b - a then .error "size mismatch"
      else if isErr v then .error "err value"
      else
        match v with
        | .comp _ _ vps =>
            vps.foldlM (fun acc (p : Rng × Expr) =>
              prev.setit acc csize ((a + p.1.1 : Nat) : Int) ((a + p.1.2 : Nat) : Int) p.2) ps
        | _ =>
            match getPart ps (a, b) with
            | some _ => .ok (putPart ps (a, b) v)
            | none => (cutParts prev.getit ps a b).map (fun ps2 => addPart ps2 (a, b) v)

-- `comp.__getitem__` body (bounds already checked).
def getitCB (prev : Interp) : Nat → Bool → List (Rng × Expr) → Nat → Nat → Expr :=
  fun size sf ps start stop =>
    match getPart ps (start, stop) with
    | some p => p
    | none =>
        if start == 0 && stop == size then .comp size sf ps
        else
          let l := stop - start
          match compWalk prev.getit (fun acc csz s1 s2 v => prev.setit acc csz s1 s2 v)
              ps stop l l 0 start [] with
          | .error m => .err m
          | .ok (rp0, curF) =>
              let rp := restruct rp0
              match rp with
              | [] => prev.slicer (.comp size sf ps) curF (stop - curF)
              | [(_, v)] => v
              | _ => .comp l sf rp

-- `comp.simplify`: simplify the parts, restructure, and degenerate to a
-- spanning single part.
def compSimpB (prev : Interp) : Bool → Bool → Nat → Bool → List (Rng × Expr) → Expr :=
  fun bs wd size sf ps =>
    let ps2 := ps.map (fun p => (p.1, prev.simp bs wd p.2))
    let ps3 := restruct ps2
    match getPart ps3 (0, size) with
    | some p => p
    | none => .comp size sf ps3

-- `ptr.__init__`: unwrap a ptr base (inheriting its segment and folding
-- its displacement), then factor the constant offset out of the base.
def ptrMkB (prev : Interp) : Expr → Option Expr → Int → Expr :=
  fun base seg disp =>
    if isErr base then .err "ptr base" else
    let st : Expr × Option Expr × Int :=
      match base with
      | .ptr b sg d _ => (b, (match seg with | none => sg | some s => some s), d + disp)
      | _ => (base, seg, disp)
    match prev.extOff st.1 with
    | .error m => .err m
    | .ok (b, off) => .ptr b st.2.1 (st.2.2 + off) (esize st.1)

-- `extract_offset(e)`: simplify, force unsigned, and split an addition/
-- subtraction with a constant right operand.  The source reads the
-- operator of `e` (not of the simplified `x`): a non-operator `e` whose
-- simplification is such an addition raises `AttributeError`.
def extOffB (prev : Interp) : Expr → Except String (Expr × Int) :=
  fun e =>
    let x := setSf (prev.simp false false e) false
    let xr : Option Expr :=
      match x with
      | .op _ _ _ r _ _ => some r
      | .uop _ _ r _ _ => some r
      | _ => none
    match xr with
    | some r =>
        if isCst r then
          let esym : Option String :=
            match e with
            | .op s _ _ _ _ _ => some s
            | .uop s _ _ _ _ => some s
            | _ => none
          let xl : Expr :=
            match x with
            | .op _ _ l _ _ _ => l
            | _ => .err "uop has no left operand"
          match esym with
          | none => .error "AttributeError"
          | some s =>
              if s == "+" then .ok (xl, valueOf r)
              else if s == "-" then .ok (xl, -(valueOf r))
              else .ok (x, 0)
        else .ok (x, 0)
    | none => .ok (x, 0)

-- `ptr.simplify`.
def ptrSimpB (prev : Interp) : Bool → Bool → Expr → Option Expr → Int → Nat → Expr :=
  fun bs wd base seg disp size =>
    match prev.extOff base with
    | .error m => .err m
    | .ok (b, off) =>
        let disp2 := disp + off
        let seg2 := match seg with | none => none | some s => some (prev.simp bs wd s)
        let disp3 := if isDef b then disp2 else 0
        .ptr b seg2 disp3 size

-- `vec.simplify`: simplify members (default keyword arguments), stop on
-- an undefined/top member, flatten vecs, deduplicate, unwrap a
-- singleton, wrap when widening, collapse over the threshold.
def vecSimpB (T : Nat) (prev : Interp) : Bool → Bool → List Expr → Nat → Bool → Expr :=
  fun _ wd l size sf =>
    let step := fun (acc : Except Expr (List Expr × Bool)) (e : Expr) =>
      match acc with
      | .error stop => .error stop
      | .ok (xs, w) =>
          let ee := prev.simp false false e
          if !(isDef ee) then .error ee
          else
            match ee with
            | .vec l2 _ _ => .ok (xs ++ l2, w)
            | .vecw l2 _ => .ok (xs ++ l2, true)
            | _ => .ok (xs ++ [ee], w)
    match l.foldl step (.ok ([], wd)) with
    | .error stop => stop
    | .ok (xs, w) =>
        let dl := xs.foldl (fun acc e => if prev.vecHas acc e then acc else acc ++ [e]) []
        match dl with
        | [e] => e
        | _ =>
            if w then .vecw dl size
            else if 0 < T && oGtN (oSum (dl.map complexityE)) T then .top size
            else .vec dl size sf

-- `tst.simplify`.
def tstSimpB (prev : Interp) : Bool → Bool → Expr → Expr → Expr → Nat → Expr :=
  fun bs wd t l r size =>
    let t2 := prev.simp bs wd t
    if wd || !(isDef t2) then
      match vecMk [l, r] with
      | .vec vl vs vsf => prev.vecSimp false false vl vs vsf
      | e => e
    else
      let l2 := prev.simp bs wd l
      if exprBool (prev.expEq t2 bit1) then l2
      else
        let r2 := prev.simp bs wd r
        if exprBool (prev.expEq t2 bit0) then r2
        else if exprBool (prev.expEq l2 r2) then l2
        else .tst t2 l2 r2 size

-- `slc.simplify`.
def slcSimpB (prev : Interp) : Bool → Bool → Expr → Nat → Nat → Bool → Expr :=
  fun bs wd x pos size sf =>
    let x2 := prev.simp bs wd x
    if !(isDef x2) then .top size
    else if isCmp x2 || isCst x2 then
      setSf (prev.getit x2 (pos : Int) ((pos + size : Nat) : Int)) sf
    else
      match x2 with
      | .op osym _ ol orr _ _ =>
          if opType osym == 2 || ((osym == "+" || osym == "-") && pos == 0) then
            let r2 := prev.getit orr (pos : Int) ((pos + size : Nat) : Int)
            let l2 := prev.getit ol (pos : Int) ((pos + size : Nat) : Int)
            prev.opCall osym l2 (some r2)
          else .slc x2 pos size sf
      | .uop osym _ orr _ _ =>
          if opType osym == 2 || ((osym == "+" || osym == "-") && pos == 0) then
            prev.unary osym (prev.getit orr (pos : Int) ((pos + size : Nat) : Int))
          else .slc x2 pos size sf
      | .vec vl _ _ =>
          vecMk (vl.map (fun m => prev.getit m (pos : Int) ((pos + size : Nat) : Int)))
      | _ => .slc x2 pos size sf

-- `op.simplify`: simplify operands; for arithmetic/logic (except `/`,
-- `%`) absorb tops, push constants right (flipping a subtraction), order
-- symbols lexically; then `eqn2_helpers`.
def opSimpB (prev : Interp) : Bool → Bool → String → Nat → Expr → Expr → Nat → Bool → Expr :=
  fun bs wd sym prop l0 r0 size sf =>
    let l := prev.simp bs wd l0
    let r := prev.simp bs wd r0
    if prop < 4 && !(sym == "/") && !(sym == "%") then
      if isTop l then l
      else if isTop r then r
      else
        let minus := sym == "-"
        if isCst l then
          if isCst r then prev.opCall sym l (some r)
          else if minus then prev.eqn2 bs wd "+" prop (prev.neg r) l size sf
          else prev.eqn2 bs wd sym prop r l size sf
        else if !(isCst r) then
          let lh := String.join (symbolsOf l)
          let rh := String.join (symbolsOf r)
          if strLt rh lh then
            if minus then prev.eqn2 bs wd "+" prop (prev.neg r) l size sf
            else prev.eqn2 bs wd sym prop r l size sf
          else prev.eqn2 bs wd sym prop l r size sf
        else prev.eqn2 bs wd sym prop l r size sf
    else prev.eqn2 bs wd sym prop l r size sf

-- `uop.simplify`.
def uopSimpB (prev : Interp) : Bool → Bool → String → Nat → Expr → Nat → Bool → Expr :=
  fun bs wd sym prop r0 size sf =>
    let r := prev.simp bs wd r0
    if isTop r then r
    else prev.eqn1 bs wd sym prop r size sf

-- `exp.__eq__` (`cst.__eq__` first compares raw patterns of two
-- constants): same hash gives the true bit, otherwise a symbolic
-- comparison node.
def expEqB (prev : Interp) : Expr → Expr → Expr :=
  fun a b =>
    if isErr a || isErr b then .err "operand" else
    match a with
    | .cst va sa _ =>
        if !(sa == esize b || sa == 0 || esize b == 0) then .err "size mismatch"
        else
          (match b with
           | .cst vb _ _ => cstB (va == vb)
           | _ => if hkey a == hkey b then bit1 else prev.oper "==" a (some b))
    | _ => if hkey a == hkey b then bit1 else prev.oper "==" a (some b)

-- `composer(parts)`.
def composerB (prev : Interp) : List Expr → Expr :=
  fun parts =>
    match parts with
    | [] => .err "AssertionError"
    | [x] => x
    | _ =>
        let s := parts.foldl (fun acc e => acc + esize e) 0
        let sf := match parts.getLast? with | some e => sfOf e | none => false
        let r := parts.foldlM
          (fun (st : List (Rng × Expr) × Nat) e =>
            (prev.setit st.1 s (st.2 : Int) ((st.2 + esize e : Nat) : Int) e).map
              (fun ps => (ps, st.2 + esize e)))
          (([], 0) : List (Rng × Expr) × Nat)
        match r with
        | .error m => .err m
        | .ok (ps, _) => prev.compSimp false false s sf ps

-- `geu(x, y)`: symbolic operands give a raw `>=.` node; constants are
-- compared signed after both sign flags are set.
def geuB (_prev : Interp) : Expr → Expr → Expr :=
  fun x y =>
    match x, y with
    | .cst vx sx _, .cst vy sy _ =>
        if !(sx == sy || sx == 0 || sy == 0) then .err "size mismatch"
        else cstB (cstValue vy sy true ≤ cstValue vx sx true)
    | _, _ => opInit ">=." x y

-- `ltu(x, y)`.
def ltuB (_prev : Interp) : Expr → Expr → Expr :=
  fun x y =>
    match x, y with
    | .cst vx sx _, .cst vy sy _ =>
        if !(sx == sy || sx == 0 || sy == 0) then .err "size mismatch"
        else cstB (cstValue vx sx true < cstValue vy sy true)
    | _, _ => opInit "<." x y

-- `ror(x, n)`: constants rotate through shifts (`x.size - n` wraps the
-- int through `__rsub__`), anything else is a raw `>>>` node.
def rorB (prev : Interp) : Expr → Expr → Expr :=
  fun x n =>
    if isCst x then
      let w := prev.binop "-" (cstMk (esize x) (esize n)) n
      prev.binop "|" (prev.binop ">>" x n) (prev.binop "<<" x w)
    else opInit ">>>" x n

-- `rol(x, n)`.
def rolB (prev : Interp) : Expr → Expr → Expr :=
  fun x n =>
    if isCst x then
      let w := prev.binop "-" (cstMk (esize x) (esize n)) n
      prev.binop "|" (prev.binop "<<" x n) (prev.binop ">>" x w)
    else opInit "<<<" x n

-- `e in l` for the vec deduplication: Python list containment compares
-- with `__eq__` (identity adds nothing: hash-equal objects already
-- compare true), and the result is used as a boolean.
def vecHasB (prev : Interp) : List Expr → Expr → Bool :=
  fun l e => l.any (fun m => exprBool (prev.expEq m e))


/-- One fuel level of the engine, built over the previous one.  Each field
is a line-by-line transcription of the corresponding Python method of
`cas/expressions.py`; the threshold `T` models `conf.Cas.complexity`. -/
def stepI (T : Nat) (prev : Interp) : Interp where
  simp := simpB prev
  oper := operB prev
  binop := binopB prev
  neg := negB prev
  inv := invB prev
  opCall := opCallB prev
  unary := unaryB prev
  eqn2 := eqn2B T prev
  eqn1 := eqn1B prev
  getit := getitB prev
  slicer := slicerB prev
  slcMk := slcMkB prev
  setit := setitB prev
  getitC := getitCB prev
  compSimp := compSimpB prev
  ptrMk := ptrMkB prev
  extOff := extOffB prev
  ptrSimp := ptrSimpB prev
  vecSimp := vecSimpB T prev
  tstSimp := tstSimpB prev
  slcSimp := slcSimpB prev
  opSimp := opSimpB prev
  uopSimp := uopSimpB prev
  expEq := expEqB prev
  composer := composerB prev
  geu := geuB prev
  ltu := ltuB prev
  ror := rorB prev
  rol := rolB prev
  vecHas := vecHasB prev

/-- The engine at a given complexity threshold and fuel. -/
def IT (T : Nat) : Nat → Interp
  | 0 => baseI
  | f + 1 => stepI T (IT T f)

/-- `cst.zeroextend(size)` on a constant with raw pattern `v` of width `s`:
`cst(self.v, max(size, self.size))`. -/
def cstZeroextend (v s : Nat) (size : Nat) : Expr :=
  cstMkN v (max size s)

/-- `cst.signextend(size)`: the sign flag is forced, the signed `value` is
read back, and a constant of the extended width is built from it. -/
def cstSignextend (v s : Nat) (size : Nat) : Expr :=
  cstMk (cstValue v s true) (max size s)

/-- The operand states after the binary `cst` entry points `a <op> b`:
`cst.__rshift__` executes `self.sf = False` and `cst.__floordiv__` (the
`.>>` arithmetic shift) executes `self.sf = True`; every other `cst` dunder
leaves both operands untouched. -/
def cstBinPost (sym : String) (a b : Expr) : Expr × Expr :=
  if sym == ">>" then (setSf a false, b)
  else if sym == ".>>" then (setSf a true, b)
  else (a, b)

/-- The operand states after `_operator.__call__` on two constants: the
unsigned classes (`&`, `|`, `^`, and the unsigned comparisons) first clear
both sign flags; `geu`/`ltu` then set both; the shift implementations
mutate through the `cst` dunders (the rotations shift the receiver right,
clearing its flag). -/
def opCallPost (sym : String) (a b : Expr) : Expr × Expr :=
  if sym == "&" || sym == "|" || sym == "^" then (setSf a false, setSf b false)
  else if sym == ">=." || sym == "<." then (setSf a true, setSf b true)
  else if sym == ">>>" || sym == "<<<" then (setSf a false, b)
  else cstBinPost sym a b

/-- The pointer constructions of the claim: a start over a register (bare
or displaced by a constant), then arbitrary nesting of `ptr` over a `ptr`
or over `ptr ± constant` (which the simplifier already folds into a
`ptr`). -/
inductive PtrChain where
  | first (d : Int)
  | firstAdd (c : Int)
  | wrap (p : PtrChain) (d : Int)
  | addC (p : PtrChain) (c : Int)
  | subC (p : PtrChain) (c : Int)

/-- Build the pointer of a `PtrChain` over the register `rn` of width `n`,
through the real constructors: `ptr(...)`, `ptr(... + cst)`, `ptr(ptr,
disp=...)`. -/
def buildPtr (T f : Nat) (rn : String) (n : Nat) : PtrChain → Expr
  | .first d => (IT T f).ptrMk (.reg rn n) none d
  | .firstAdd c => (IT T f).ptrMk ((IT T f).binop "+" (.reg rn n) (cstMk c n)) none 0
  | .wrap p d => (IT T f).ptrMk (buildPtr T f rn n p) none d
  | .addC p c => (IT T f).ptrMk ((IT T f).binop "+" (buildPtr T f rn n p) (cstMk c n)) none 0
  | .subC p c => (IT T f).ptrMk ((IT T f).binop "-" (buildPtr T f rn n p) (cstMk c n)) none 0

/-- The algebraic sum of the offsets folded out along a `PtrChain`: each
constant contributes its `value` as an `n`-bit constant (for
`-2^(n-1) ≤ c < 2^n` this is `c` itself). -/
def chainDisp (n : Nat) : PtrChain → Int
  | .first d => d
  | .firstAdd c => valueOf (cstMk c n)
  | .wrap p d => chainDisp n p + d
  | .addC p c => chainDisp n p + valueOf (cstMk c n)
  | .subC p c => chainDisp n p - valueOf (cstMk c n)

/-- The closed set of binary operator symbols. -/
def binOps : List String :=
  ["+", "-", "*", "**", "/", "%", "&", "|", "^",
   "==", "!=", "<=", ">=", ">=.", "<", "<.", ">",
   "<<", ">>", ".>>", ">>>", "<<<"]

/-- The comparison symbols (operator class CONDT, result width 1). -/
def cmpOps : List String := ["==", "!=", "<=", ">=", ">=.", "<", "<.", ">"]

/-- The tail of `eqn2_helpers` after its two complexity-threshold guards
(`eqn2B` with both guards settled negatively; the body below is that of
`eqn2B` verbatim from the first `isTop` test on). -/
def eqn2core (prev : Interp) : Bool → Bool → String → Nat → Expr → Expr → Nat → Bool → Expr :=
  fun bs wd sym prop l r size sf =>
    if isTop r || isTop l then .top size
    else
      let st1 : String × Expr × Expr :=
        match l with
        | .op ls _ ll lr _ _ =>
            if isCst lr then
              match opMulSym sym ls with
              | some _ => (ls, prev.opCall sym ll (some r), lr)
              | none => (sym, l, r)
            else (sym, l, r)
        | _ => (sym, l, r)
      let sym := st1.1
      let l := st1.2.1
      let r := st1.2.2
      let st2 : String × Expr :=
        match r with
        | .uop rs _ rr _ _ => if sym == "+" && rs == "-" then ("-", rr) else (sym, r)
        | _ => (sym, r)
      let sym := st2.1
      let r := st2.2
      let st3 : String × Expr × Expr :=
        match r with
        | .op rs _ rl rr _ _ =>
            if isCst rr then
              match opMulSym sym rs with
              | some x => (x, prev.opCall sym l (some rl), rr)
              | none => (sym, l, r)
            else (sym, l, r)
        | .uop rs _ rr _ _ =>
            if isCst rr then
              match opMulSym sym rs with
              | some x => (x, prev.opCall sym l none, rr)
              | none => (sym, l, r)
            else (sym, l, r)
        | _ => (sym, l, r)
      let sym := st3.1
      let l := st3.2.1
      let r := st3.2.2
      let node := Expr.op sym prop l r size sf
      let tail : Unit → Expr := fun _ =>
        if isVec l then
          match vecMk ((vecList l).map (fun x => prev.opCall sym x (some r))) with
          | .vec l2 s2 sf2 => prev.vecSimp false wd l2 s2 sf2
          | e2 => e2
        else if isVec r then
          match vecMk ((vecList r).map (fun x => prev.opCall sym l (some x))) with
          | .vec l2 s2 sf2 => prev.vecSimp false wd l2 s2 sf2
          | e2 => e2
        else if toStr l == toStr r then
          if sym == "!=" || sym == "<" || sym == ">" then bit0
          else if sym == "==" || sym == "<=" || sym == ">=" then bit1
          else if sym == "-" then cstMkN 0 size
          else if sym == "^" then cstMkN 0 size
          else if sym == "&" then l
          else if sym == "|" then l
          else node
        else node
      if isCst r then
        let va := valueOf r
        let hit : Option Expr :=
          if va == 0 then
            if sym == "|" || sym == "^" || sym == "+" || sym == "-" || sym == ">>" ||
               sym == "<<" || sym == ">>>" || sym == "<<<" then some l
            else if sym == "&" || sym == "*" || sym == "**" then some (cstMkN 0 size)
            else if sym == "==" && isExt l then some bit0
            else if sym == "!=" && isExt l then some bit1
            else none
          else if va == 1 && (sym == "*" || sym == "**" || sym == "/") then some l
          else if sym == "&" && ismaskI va then
            let lm := getLsbMsb va.toNat
            some (match prev.setit [] size 0 (size : Int) (cstMkN 0 size) with
              | .error m => .err m
              | .ok c1 =>
                  match prev.setit c1 size (lm.1 : Int) ((lm.2 + 1 : Nat) : Int)
                      (prev.getit l (lm.1 : Int) ((lm.2 + 1 : Nat) : Int)) with
                  | .error m => .err m
                  | .ok c2 => prev.compSimp false false size false c2)
          else if bs && (sym == "&" || sym == "|" || sym == "^") then
            some (prev.composer ((List.range size).map (fun i =>
              prev.opCall sym (prev.getit l (i : Int) ((i : Int) + 1))
                (some (prev.getit r (i : Int) ((i : Int) + 1))))))
          else if bs && sym == "<<" then
            some (prev.composer (List.replicate va.toNat bit0 ++
              (List.range ((size : Int) - va).toNat).map (fun i =>
                prev.getit l (i : Int) ((i : Int) + 1))))
          else if bs && sym == ">>" then
            some (prev.composer ((List.range ((size : Int) - va).toNat).map (fun j =>
                prev.getit l (va + (j : Int)) (va + (j : Int) + 1)) ++
              List.replicate va.toNat bit0))
          else if sym == "<<" || sym == ">>" then
            let lsz := esize l
            some (match prev.setit [] lsz 0 (lsz : Int) (cstMkN 0 lsz) with
              | .error m => .err m
              | .ok c1 =>
                  let c2r : Except String (List (Rng × Expr)) :=
                    if va < (lsz : Int) then
                      if sym == "<<" then
                        prev.setit c1 lsz va (lsz : Int) (prev.getit l 0 ((lsz : Int) - va))
                      else
                        prev.setit c1 lsz 0 ((lsz : Int) - va) (prev.getit l va (lsz : Int))
                    else .ok c1
                  match c2r with
                  | .error m => .err m
                  | .ok c2 => prev.compSimp false false lsz false c2)
          else none
        match hit with
        | some x => x
        | none =>
            match l with
            | .op ls _ ll lr _ _ =>
                (match opMulSym sym ls with
                 | some x =>
                     if isCst lr then .op ls prop ll (prev.binop x lr r) size sf
                     else node
                 | none =>
                     if esize r == 1 then
                       if sym == "==" then (if va == 1 then l else prev.inv l)
                       else if sym == "!=" then prev.inv l
                       else tail ()
                     else tail ())
            | .uop ls _ lr _ _ =>
                (match opMulSym sym ls with
                 | some x =>
                     if isCst lr then .op ls prop l (prev.binop x lr r) size sf
                     else node
                 | none =>
                     if esize r == 1 then
                       if sym == "==" then (if va == 1 then l else prev.inv l)
                       else if sym == "!=" then prev.inv l
                       else tail ()
                     else tail ())
            | .ptr _ _ _ _ =>
                if sym == "-" || sym == "+" then
                  prev.ptrMk l none (if sym == "+" then va else -va)
                else tail ()
            | .comp csz _ cps =>
                if sym == "&" || sym == "|" || sym == "^" then
                  match cps.foldlM (fun acc (p : Rng × Expr) =>
                      prev.setit acc csz (p.1.1 : Int) (p.1.2 : Int)
                        (prev.opCall sym p.2 (some (prev.getit r (p.1.1 : Int) (p.1.2 : Int)))))
                      ([] : List (Rng × Expr)) with
                  | .error m => .err m
                  | .ok cc => prev.compSimp bs false csz false cc
                else tail ()
            | .cst _ _ _ => prev.opCall sym l (some r)
            | _ => tail ()
      else tail ()

/-! ## Theorems -/

theorem exprBoolList_iff (l : List Expr) :
    exprBoolList l = true ↔ ∀ m ∈ l, exprBool m = true := by
  induction l with
  | nil => simp [exprBoolList]
  | cons e es ih => simp [exprBoolList, ih]

/-- C4: constructing a Conditional with the 1-bit constant 1 returns the
true branch object itself, with the 1-bit constant 0 the false branch, and
a non-constant or non-1-bit condition yields an ordinary ternary node
(`tst.__new__`/`tst.__init__`). -/
theorem tst_constant_condition (t l r : Expr) (h1 : esize l = esize r)
    (h2 : isErr l = false) (h3 : isErr r = false) (h4 : isErr t = false) :
    tstMk bit1 l r = l ∧ tstMk bit0 l r = r ∧
    (isCst t = false ∨ esize t ≠ 1 → tstMk t l r = .tst t l r (esize l)) := by
  refine ⟨?_, ?_, ?_⟩
  · simp only [tstMk, h2, h3]
    rfl
  · simp only [tstMk, h2, h3]
    rfl
  · intro h
    have hc : (isCst t && esize t == 1) = false := by
      rcases h with h | h
      · simp [h]
      · simp [h]
    simp only [tstMk, h2, h3, h4]
    simp [hc, h1]

theorem tst_constant_condition_witness :
    tstMk bit1 (.reg "a" 8) (.reg "b" 8) = .reg "a" 8 ∧
    tstMk bit0 (.reg "a" 8) (.reg "b" 8) = .reg "b" 8 ∧
    (isCst (.reg "t" 2) = false ∨ esize (.reg "t" 2) ≠ 1 →
      tstMk (.reg "t" 2) (.reg "a" 8) (.reg "b" 8) =
        .tst (.reg "t" 2) (.reg "a" 8) (.reg "b" 8) (esize (.reg "a" 8))) :=
  tst_constant_condition (.reg "t" 2) (.reg "a" 8) (.reg "b" 8) rfl rfl rfl rfl

/-- C7 (counterexample): a vector of true members coerces to boolean true
while not being the 1-bit constant 1, refuting "everything else coerces to
false" (`vec.__bool__` is the conjunction over the members). -/
theorem bool_coercion_cex :
    exprBool (.vec [bit1] 1 false) = true ∧ isCst (.vec [bit1] 1 false) = false :=
  ⟨rfl, rfl⟩

/-- C7 (amended): boolean coercion is true exactly for a constant with
`v = 1` and width 1 (whatever its sign flag) and for a `vec` all of whose
members coerce to true (vacuously the empty one); every other node is
false. -/
theorem bool_coercion_characterization (e : Expr) :
    exprBool e = true ↔
      (∃ sf, e = .cst 1 1 sf) ∨
      (∃ l s sf, e = .vec l s sf ∧ ∀ m ∈ l, exprBool m = true) := by
  constructor
  · intro h
    cases e with
    | cst v s sf =>
        refine Or.inl ⟨sf, ?_⟩
        rw [show exprBool (.cst v s sf) = (s == 1 && v == 1) from rfl,
          Bool.and_eq_true, beq_iff_eq, beq_iff_eq] at h
        rw [h.1, h.2]
    | vec l s sf =>
        refine Or.inr ⟨l, s, sf, rfl, ?_⟩
        rw [show exprBool (.vec l s sf) = exprBoolList l from rfl, exprBoolList_iff] at h
        exact h
    | void s => exact Bool.noConfusion h
    | top s => exact Bool.noConfusion h
    | reg rn s => exact Bool.noConfusion h
    | comp s sf ps => exact Bool.noConfusion h
    | ptr b sg d s => exact Bool.noConfusion h
    | slc x p s sf => exact Bool.noConfusion h
    | tst t l r s => exact Bool.noConfusion h
    | op sym pr l r s sf => exact Bool.noConfusion h
    | uop sym pr r s sf => exact Bool.noConfusion h
    | vecw l s => exact Bool.noConfusion h
    | err m => exact Bool.noConfusion h
  · rintro (⟨sf, rfl⟩ | ⟨l, s, sf, rfl, hall⟩)
    · rfl
    · rw [show exprBool (.vec l s sf) = exprBoolList l from rfl, exprBoolList_iff]
      exact hall

/-- C10: slicing an undefined (`exp`, tag 0) or `top` expression through
`slicer` yields `top` of the requested width — the not-defined test comes
before the full-width shortcut, so even the identity slice of a void value
is a `top`, not the void marker. -/
theorem slicer_undefined (T f : Nat) (x : Expr) (pos size : Nat)
    (hx : isDef x = false) (he : isErr x = false) :
    (IT T (f + 1)).slicer x pos size = .top size ∧
    (IT T (f + 1)).slicer (.void size) 0 size = .top size ∧
    (IT T (f + 1)).slicer (.void size) 0 size ≠ .void size := by
  have hu : (IT T (f + 1)).slicer = slicerB (IT T f) := rfl
  refine ⟨?_, ?_, ?_⟩
  · rw [hu]
    simp [slicerB, he, hx]
  · rw [hu]
    rfl
  · rw [hu]
    intro h
    exact Expr.noConfusion (show Expr.top size = Expr.void size from h)

theorem slicer_undefined_witness :
    (IT 100 3).slicer (.void 32) 5 8 = .top 8 ∧
    (IT 100 3).slicer (.void 8) 0 8 = .top 8 ∧
    (IT 100 3).slicer (.void 8) 0 8 ≠ .void 8 :=
  slicer_undefined 100 2 (.void 32) 5 8 rfl rfl

/-- C2 (counterexample): `simplify` is not idempotent.  Slicing a vector
distributes the slice over the members without re-simplifying
(`slc.simplify`, the `_is_vec` branch builds a raw `vec`), so the first
pass leaves a vector with duplicate members that the second pass
deduplicates and unwraps (`vec.simplify`); the printed forms differ. -/
theorem simplify_not_idempotent_cex :
    ¬(toStr ((IT 100 8).simp false false ((IT 100 8).simp false false
          (.slc (.vec [.cst 0x1234 16 false, .cst 0x5634 16 false] 16 false) 0 8 false))) =
        toStr ((IT 100 8).simp false false
          (.slc (.vec [.cst 0x1234 16 false, .cst 0x5634 16 false] 16 false) 0 8 false)) ∧
      esize ((IT 100 8).simp false false ((IT 100 8).simp false false
          (.slc (.vec [.cst 0x1234 16 false, .cst 0x5634 16 false] 16 false) 0 8 false))) =
        esize ((IT 100 8).simp false false
          (.slc (.vec [.cst 0x1234 16 false, .cst 0x5634 16 false] 16 false) 0 8 false))) := by
  intro h
  exact absurd h.1 (by decide)

theorem slicer_result_not_err (T f : Nat) (x : Expr) (pos size : Nat)
    (he : isErr x = false) (hs : isSlc x = false) (hc : isCmp x = false) :
    isErr ((IT T (f + 2)).slicer x pos size) = false := by
  have hu : (IT T (f + 2)).slicer = slicerB (IT T (f + 1)) := rfl
  have hu2 : (IT T (f + 1)).slcMk = slcMkB (IT T f) := rfl
  rw [hu]
  unfold slicerB
  rw [he]
  simp only [Bool.false_eq_true, if_false]
  by_cases hd : isDef x
  · rw [hd]
    simp only [Bool.not_true, Bool.false_eq_true, if_false]
    by_cases hfull : (pos == 0 && size == esize x) = true
    · rw [if_pos hfull]
      exact he
    · rw [if_neg hfull]
      cases x with
      | comp s sf ps => exact absurd hc (by simp [isCmp])
      | err m => exact absurd he (by simp [isErr])
      | slc a b c d => exact absurd hs (by simp [isSlc])
      | cst v s sf => rw [hu2]; rfl
      | reg rn s => rw [hu2]; rfl
      | void s => rw [hu2]; rfl
      | top s => rw [hu2]; rfl
      | ptr b sg d s => rw [hu2]; rfl
      | tst t l r s => rw [hu2]; rfl
      | op sym pr l r s sf => rw [hu2]; rfl
      | uop sym pr r s sf => rw [hu2]; rfl
      | vec l s sf => rw [hu2]; rfl
      | vecw l s => rw [hu2]; rfl
  · rw [Bool.not_eq_true] at hd
    rw [hd]
    rfl

/-- C9: the slice guard of `_checkarg_slice` raises exactly on `start < 0`,
`stop > size` or `stop ≤ start`, before any dispatch happens; with sound
bounds the guard passes and the class body runs — on the classes whose
`__getitem__` is the base one (plus `cst`) the built node is not an error. -/
theorem getitem_slice_check (T f : Nat) (e : Expr) (sta sto : Int)
    (he : isErr e = false) :
    (sta < 0 ∨ (esize e : Int) < sto → (IT T (f + 3)).getit e sta sto = .err "bounds") ∧
    (0 ≤ sta → sto ≤ (esize e : Int) → sto ≤ sta →
      (IT T (f + 3)).getit e sta sto = .err "invalid slice") ∧
    (0 ≤ sta → sta < sto → sto ≤ (esize e : Int) →
      (IT T (f + 3)).getit e sta sto = getitBody (IT T (f + 2)) e sta sto) ∧
    (0 ≤ sta → sta < sto → sto ≤ (esize e : Int) →
      isCmp e = false → isVec e = false → isSlc e = false →
      isErr ((IT T (f + 3)).getit e sta sto) = false) := by
  have hu : (IT T (f + 3)).getit = getitB (IT T (f + 2)) := rfl
  rw [hu]
  unfold getitB
  rw [he]
  simp only [Bool.false_eq_true, if_false]
  refine ⟨?_, ?_, ?_, ?_⟩
  · intro h
    have hcond : (decide (sta < 0) || decide ((esize e : Int) < sto)) = true := by
      rcases h with h | h <;> simp [h]
    rw [hcond]
    rfl
  · intro h1 h2 h3
    have hcond : (decide (sta < 0) || decide ((esize e : Int) < sto)) = false := by
      simp; omega
    rw [hcond]
    simp only [Bool.false_eq_true, if_false]
    rw [if_pos (by exact_mod_cast h3)]
  · intro h1 h2 h3
    have hcond : (decide (sta < 0) || decide ((esize e : Int) < sto)) = false := by
      simp; omega
    rw [hcond]
    simp only [Bool.false_eq_true, if_false]
    rw [if_neg (by omega)]
  · intro h1 h2 h3 hcm hvc hsl
    have hcond : (decide (sta < 0) || decide ((esize e : Int) < sto)) = false := by
      simp; omega
    rw [hcond]
    simp only [Bool.false_eq_true, if_false]
    rw [if_neg (by omega)]
    cases e with
    | cst v s sf => rfl
    | comp s sf ps => exact absurd hcm (by simp [isCmp])
    | vec l s sf => exact absurd hvc (by simp [isVec])
    | vecw l s => exact absurd hvc (by simp [isVec])
    | slc x p s sf => exact absurd hsl (by simp [isSlc])
    | err m => exact absurd he (by simp [isErr])
    | void s => exact slicer_result_not_err T f _ _ _ rfl rfl rfl
    | top s => exact slicer_result_not_err T f _ _ _ rfl rfl rfl
    | reg rn s => exact slicer_result_not_err T f _ _ _ rfl rfl rfl
    | ptr b sg d s => exact slicer_result_not_err T f _ _ _ rfl rfl rfl
    | tst t l r s => exact slicer_result_not_err T f _ _ _ rfl rfl rfl
    | op sym pr l r s sf => exact slicer_result_not_err T f _ _ _ rfl rfl rfl
    | uop sym pr r s sf => exact slicer_result_not_err T f _ _ _ rfl rfl rfl

theorem getitem_slice_check_witness :
    ((-1 : Int) < 0 ∨ ((esize (.reg "eax" 32) : Nat) : Int) < 8 →
      (IT 100 5).getit (.reg "eax" 32) (-1) 8 = .err "bounds") ∧
    (0 ≤ (-1 : Int) → (8 : Int) ≤ ((esize (.reg "eax" 32) : Nat) : Int) → (8 : Int) ≤ -1 →
      (IT 100 5).getit (.reg "eax" 32) (-1) 8 = .err "invalid slice") ∧
    (0 ≤ (-1 : Int) → (-1 : Int) < 8 → (8 : Int) ≤ ((esize (.reg "eax" 32) : Nat) : Int) →
      (IT 100 5).getit (.reg "eax" 32) (-1) 8 = getitBody (IT 100 4) (.reg "eax" 32) (-1) 8) ∧
    (0 ≤ (-1 : Int) → (-1 : Int) < 8 → (8 : Int) ≤ ((esize (.reg "eax" 32) : Nat) : Int) →
      isCmp (.reg "eax" 32) = false → isVec (.reg "eax" 32) = false →
      isSlc (.reg "eax" 32) = false →
      isErr ((IT 100 5).getit (.reg "eax" 32) (-1) 8) = false) :=
  getitem_slice_check 100 2 (.reg "eax" 32) (-1) 8 rfl

/-- C5: `comp.restruct` merges adjacent constant parts into one wider
constant in little-endian bit order (the lower range in the low bits), and
`comp.simplify` returns the single part when it spans the whole range: the
width-32 composite with parts `[0:8) = cst(0x9d,8)` and `[8:32) = cst(0,24)`
reduces to `cst(0x9d,32)`. -/
theorem comp_restruct_merges :
    (∀ (v1 v2 s1 s2 : Nat) (f1 f2 : Bool), 0 < s1 → 0 < s2 →
      restruct [((0, s1), .cst v1 s1 f1), ((s1, s1 + s2), .cst v2 s2 f2)] =
        [((0, s1 + s2), cstMk (((v2 <<< s1) ||| v1 : Nat) : Int) (s1 + s2))]) ∧
    (IT 100 4).compSimp false false 32 false
        [((0, 8), .cst 0x9d 8 false), ((8, 32), .cst 0 24 false)] =
      .cst 0x9d 32 false := by
  constructor
  · intro v1 v2 s1 s2 f1 f2 h1 h2
    have hne : (((s1, s1 + s2) : Rng) == ((0, s1) : Rng)) = false := by
      have hs1 : (s1 == 0) = false := by simp; omega
      show (s1 == 0 && (s1 + s2 == s1)) = false
      rw [hs1, Bool.false_and]
    have hsort : sortParts
        [((0, s1), Expr.cst v1 s1 f1), ((s1, s1 + s2), Expr.cst v2 s2 f2)] =
        [((0, s1), Expr.cst v1 s1 f1), ((s1, s1 + s2), Expr.cst v2 s2 f2)] := by
      simp [sortParts, insortP, Nat.ble_eq]
    have hmf : mergeFind
        [((0, s1), Expr.cst v1 s1 f1), ((s1, s1 + s2), Expr.cst v2 s2 f2)] =
        some ((0, s1), ((s1, s1 + s2), ((0, s1 + s2),
          cstMk (((v2 <<< s1) ||| v1 : Nat) : Int) (s1 + s2)))) := by
      unfold mergeFind
      simp
    show restructGo 2 [((0, s1), Expr.cst v1 s1 f1), ((s1, s1 + s2), Expr.cst v2 s2 f2)] = _
    unfold restructGo
    rw [hsort, hmf]
    show restructGo 1 (putPart (popPart (popPart
        [((0, s1), Expr.cst v1 s1 f1), ((s1, s1 + s2), Expr.cst v2 s2 f2)]
        (0, s1)) (s1, s1 + s2)) (0, s1 + s2)
        (cstMk (((v2 <<< s1) ||| v1 : Nat) : Int) (s1 + s2))) = _
    have hpop : popPart
        [((0, s1), Expr.cst v1 s1 f1), ((s1, s1 + s2), Expr.cst v2 s2 f2)] (0, s1) =
        [((s1, s1 + s2), Expr.cst v2 s2 f2)] := by
      simp [popPart, List.filter, bne, hne]
    rw [hpop]
    have hpop2 : popPart [((s1, s1 + s2), Expr.cst v2 s2 f2)] (s1, s1 + s2) = [] := by
      simp [popPart, List.filter]
    rw [hpop2]
    rfl
  · rfl

theorem comp_restruct_merges_witness :
    restruct [((0, 8), .cst 157 8 false), ((8, 32), .cst 0 24 false)] =
      [((0, 32), cstMk (((0 <<< 8) ||| 157 : Nat) : Int) 32)] :=
  comp_restruct_merges.1 157 0 8 24 false false (by decide) (by decide)

/-- C8 counterexample: `cst.__rshift__` executes `self.sf = False` before
computing, so shifting a signed constant mutates its sign flag in place:
after `cst(255,8,signed) >> cst(1,8)` the left operand is no longer the
signed constant it was. -/
theorem cst_rshift_mutates_cex :
    (cstBinPost ">>" (.cst 255 8 true) (.cst 1 8 false)).1 ≠ .cst 255 8 true := by
  intro h
  simp [cstBinPost, setSf] at h

/-- C8 (amended): for every operator in the closed binary set, the `cst`
entry points leave each operand's raw pattern `v` and `size` unchanged, and
also its sign flag except for the flag-mutating operators: `>>` clears and
`.>>` sets the left operand's `sf`, and through `_operator.__call__` the
unsigned classes `&`, `|`, `^`, `>=.`, `<.` rewrite both flags while the
rotations `>>>`, `<<<` clear the left one. -/
theorem cst_operands_frame (sym : String) (_hs : sym ∈ binOps)
    (va sa vb sb : Nat) (fa fb : Bool) :
    (∃ fa2, cstBinPost sym (.cst va sa fa) (.cst vb sb fb) =
        (.cst va sa fa2, .cst vb sb fb) ∧
      (sym ≠ ">>" → sym ≠ ".>>" → fa2 = fa)) ∧
    (∃ fa3 fb3, opCallPost sym (.cst va sa fa) (.cst vb sb fb) =
        (.cst va sa fa3, .cst vb sb fb3) ∧
      (sym ∉ ([">>", ".>>", "&", "|", "^", ">=.", "<.", ">>>", "<<<"] : List String) →
        fa3 = fa ∧ fb3 = fb)) := by
  constructor
  · by_cases h1 : sym = ">>"
    · exact ⟨false, by simp [cstBinPost, h1, setSf], fun hc _ => absurd h1 hc⟩
    · by_cases h2 : sym = ".>>"
      · exact ⟨true, by simp [cstBinPost, h1, h2, setSf], fun _ hc => absurd h2 hc⟩
      · exact ⟨fa, by simp [cstBinPost, h1, h2], fun _ _ => rfl⟩
  · by_cases ha : sym = "&"
    · exact ⟨false, false, by simp [opCallPost, ha, setSf],
        fun hm => absurd (show sym ∈ _ by rw [ha]; decide) hm⟩
    · by_cases hb : sym = "|"
      · exact ⟨false, false, by simp [opCallPost, ha, hb, setSf],
          fun hm => absurd (show sym ∈ _ by rw [hb]; decide) hm⟩
      · by_cases hc : sym = "^"
        · exact ⟨false, false, by simp [opCallPost, ha, hb, hc, setSf],
            fun hm => absurd (show sym ∈ _ by rw [hc]; decide) hm⟩
        · by_cases hd : sym = ">=."
          · exact ⟨true, true, by simp [opCallPost, ha, hb, hc, hd, setSf],
              fun hm => absurd (show sym ∈ _ by rw [hd]; decide) hm⟩
          · by_cases he : sym = "<."
            · exact ⟨true, true, by simp [opCallPost, ha, hb, hc, hd, he, setSf],
                fun hm => absurd (show sym ∈ _ by rw [he]; decide) hm⟩
            · by_cases hf : sym = ">>>"
              · exact ⟨false, fb, by simp [opCallPost, ha, hb, hc, hd, he, hf, setSf],
                  fun hm => absurd (show sym ∈ _ by rw [hf]; decide) hm⟩
              · by_cases hg : sym = "<<<"
                · exact ⟨false, fb,
                    by simp [opCallPost, ha, hb, hc, hd, he, hf, hg, setSf],
                    fun hm => absurd (show sym ∈ _ by rw [hg]; decide) hm⟩
                · by_cases h1 : sym = ">>"
                  · exact ⟨false, fb,
                      by simp [opCallPost, cstBinPost, ha, hb, hc, hd, he, hf, hg, h1, setSf],
                      fun hm => absurd (show sym ∈ _ by rw [h1]; decide) hm⟩
                  · by_cases h2 : sym = ".>>"
                    · exact ⟨true, fb,
                        by simp [opCallPost, cstBinPost,
                          ha, hb, hc, hd, he, hf, hg, h1, h2, setSf],
                        fun hm => absurd (show sym ∈ _ by rw [h2]; decide) hm⟩
                    · exact ⟨fa, fb,
                        by simp [opCallPost, cstBinPost,
                          ha, hb, hc, hd, he, hf, hg, h1, h2],
                        fun _ => ⟨rfl, rfl⟩⟩

theorem cst_operands_frame_witness :
    (∃ fa2, cstBinPost "+" (.cst 5 8 false) (.cst 3 8 true) =
        (.cst 5 8 fa2, .cst 3 8 true) ∧
      ("+" ≠ ">>" → "+" ≠ ".>>" → fa2 = false)) ∧
    (∃ fa3 fb3, opCallPost "+" (.cst 5 8 false) (.cst 3 8 true) =
        (.cst 5 8 fa3, .cst 3 8 fb3) ∧
      ("+" ∉ ([">>", ".>>", "&", "|", "^", ">=.", "<.", ">>>", "<<<"] : List String) →
        fa3 = false ∧ fb3 = true)) :=
  cst_operands_frame "+" (by decide) 5 8 3 8 false true

theorem xor_mask_of_lt {v n : Nat} (h : v < 2 ^ n) :
    v ^^^ (2 ^ n - 1) = 2 ^ n - 1 - v := by
  apply Nat.eq_of_testBit_eq
  intro i
  rw [Nat.testBit_xor]
  rw [show (2 ^ n - 1 - v : Nat) = 2 ^ n - (v + 1) by omega,
    Nat.testBit_two_pow_sub_succ h i]
  rw [show (2 ^ n - 1 : Nat) = 2 ^ n - (0 + 1) by omega,
    Nat.testBit_two_pow_sub_succ (Nat.two_pow_pos n) i]
  by_cases hc : i < n
  · simp [hc]
  · have hv : v.testBit i = false :=
      Nat.testBit_lt_two_pow
        (lt_of_lt_of_le h (Nat.pow_le_pow_right (by norm_num) (le_of_not_lt hc)))
    simp [hc, hv]

/-- The signed reading of a masked pattern is the mathematical two's
complement interpretation. -/
theorem cstValue_signed {v n : Nat} (h : v < 2 ^ n) :
    cstValue v n true = if 2 ^ (n - 1) ≤ v then (v : Int) - 2 ^ n else (v : Int) := by
  unfold cstValue
  rw [Nat.shiftRight_eq_div_pow]
  by_cases hb : 2 ^ (n - 1) ≤ v
  · have hn : 1 ≤ n := by
      by_contra hn0
      have hn1 : n = 0 := by omega
      subst hn1
      simp at hb
      omega
    have hdiv : v / 2 ^ (n - 1) = 1 := by
      apply Nat.div_eq_of_lt_le
      · omega
      · have h2 : 2 ^ (n - 1) * 2 = 2 ^ n := by
          rw [← pow_succ]
          congr 1
          omega
        omega
    rw [hdiv]
    simp only [Bool.true_and, beq_self_eq_true, if_pos]
    rw [xor_mask_of_lt h]
    have hc : ((2 ^ n : Nat) : Int) = (2 : Int) ^ n := by push_cast; ring
    rw [if_pos hb, ← hc]
    have hA : v < 2 ^ n := h
    generalize (2 ^ n : Nat) = A at hA ⊢
    omega
  · have hdiv : v / 2 ^ (n - 1) = 0 := Nat.div_eq_of_lt (lt_of_not_ge hb)
    rw [hdiv]
    simp [hb]

/-- C6: zero extension of a constant gives a constant whose `value` is the
unsigned reading of the pattern; sign extension gives one whose `value` is
the signed two's-complement reading (`cst.zeroextend`/`cst.signextend`). -/
theorem cst_extension_values (v n k : Nat) (h : v < 2 ^ n) :
    cstZeroextend v n (n + k) = .cst v (n + k) false ∧
    valueOf (cstZeroextend v n (n + k)) = (v : Int) ∧
    isCst (cstSignextend v n (n + k)) = true ∧
    valueOf (cstSignextend v n (n + k)) =
      (if 2 ^ (n - 1) ≤ v then (v : Int) - 2 ^ n else (v : Int)) := by
  have hnk : v < 2 ^ (n + k) :=
    lt_of_lt_of_le h (Nat.pow_le_pow_right (by norm_num) (Nat.le_add_right n k))
  have hmax : max (n + k) n = n + k := Nat.max_eq_left (Nat.le_add_right n k)
  have hz : cstZeroextend v n (n + k) = .cst v (n + k) false := by
    unfold cstZeroextend cstMkN
    rw [hmax, Nat.mod_eq_of_lt hnk]
  refine ⟨hz, ?_, ?_, ?_⟩
  · rw [hz]
    simp [valueOf, cstValue]
  · unfold cstSignextend cstMk
    rw [hmax]
    rfl
  · unfold cstSignextend
    rw [cstValue_signed h, hmax]
    have hA : ((2 ^ n : Nat) : Int) = (2 : Int) ^ n := by push_cast; ring
    have hB : ((2 ^ (n + k) : Nat) : Int) = (2 : Int) ^ (n + k) := by push_cast; ring
    have hAB : (2 ^ n : Nat) ≤ 2 ^ (n + k) :=
      Nat.pow_le_pow_right (by norm_num) (Nat.le_add_right n k)
    by_cases hb : 2 ^ (n - 1) ≤ v
    · rw [if_pos hb]
      have hn : 1 ≤ n := by
        rcases Nat.eq_zero_or_pos n with h0 | h1
        · subst h0; simp at hb; omega
        · exact h1
      -- the masked pattern of `v - 2^n` at width `n+k`
      have hD : 2 ^ (n - 1) * 2 = 2 ^ n := by
        rw [← pow_succ]; congr 1; omega
      have hC : 2 ^ (n + k - 1) * 2 = 2 ^ (n + k) := by
        rw [← pow_succ]; congr 1; omega
      have hDC : (2 ^ (n - 1) : Nat) ≤ 2 ^ (n + k - 1) :=
        Nat.pow_le_pow_right (by norm_num) (by omega)
      unfold cstMk
      rw [← hA, ← hB]
      have hmod : ((v : Int) - ((2 ^ n : Nat) : Int)) % ((2 ^ (n + k) : Nat) : Int) =
          ((v + (2 ^ (n + k) - 2 ^ n) : Nat) : Int) :=
        calc ((v : Int) - ((2 ^ n : Nat) : Int)) % ((2 ^ (n + k) : Nat) : Int)
            = ((v : Int) - ((2 ^ n : Nat) : Int) +
                ((2 ^ (n + k) : Nat) : Int) * 1) % ((2 ^ (n + k) : Nat) : Int) :=
              (Int.add_mul_emod_self_left ..).symm
          _ = (v : Int) - ((2 ^ n : Nat) : Int) + ((2 ^ (n + k) : Nat) : Int) * 1 :=
              Int.emod_eq_of_lt (by omega) (by omega)
          _ = ((v + (2 ^ (n + k) - 2 ^ n) : Nat) : Int) := by omega
      rw [hmod, Int.toNat_natCast]
      have hsf : ((v : Int) - ((2 ^ n : Nat) : Int) < 0) := by omega
      rw [decide_eq_true hsf]
      have hlt2 : v + (2 ^ (n + k) - 2 ^ n) < 2 ^ (n + k) := by omega
      rw [show valueOf (.cst (v + (2 ^ (n + k) - 2 ^ n)) (n + k) true) =
          cstValue (v + (2 ^ (n + k) - 2 ^ n)) (n + k) true from rfl]
      rw [cstValue_signed hlt2]
      rw [if_pos (by omega : 2 ^ (n + k - 1) ≤ v + (2 ^ (n + k) - 2 ^ n))]
      rw [← hB]
      omega
    · rw [if_neg hb]
      unfold cstMk
      have hsf : decide ((v : Int) < 0) = false := by simp
      rw [hsf]
      have hm : (v : Int) % ((2 : Int) ^ (n + k)) = (v : Int) := by
        apply Int.emod_eq_of_lt
        · omega
        · omega
      rw [hm, Int.toNat_natCast]
      rw [show valueOf (.cst v (n + k) false) = cstValue v (n + k) false from rfl]
      simp [cstValue]

theorem cst_extension_values_witness :
    cstZeroextend 0x9d 8 16 = .cst 0x9d 16 false ∧
    valueOf (cstZeroextend 0x9d 8 16) = (0x9d : Int) ∧
    isCst (cstSignextend 0x9d 8 16) = true ∧
    valueOf (cstSignextend 0x9d 8 16) =
      (if 2 ^ (8 - 1) ≤ 0x9d then ((0x9d : Nat) : Int) - 2 ^ 8 else ((0x9d : Nat) : Int)) :=
  cst_extension_values 0x9d 8 8 (by norm_num)

/-- C2 (amended): `simplify` is the identity on the scalar and location
leaves (constants, registers, Top, undefined), at every fuel and option
setting; idempotence fails in general (see the counterexample). -/
theorem simplify_fixed_on_leaves (T f : Nat) (bs wd : Bool) :
    (∀ v s sf, (IT T f).simp bs wd (.cst v s sf) = .cst v s sf) ∧
    (∀ rn s, (IT T f).simp bs wd (.reg rn s) = .reg rn s) ∧
    (∀ s, (IT T f).simp bs wd (.top s) = .top s) ∧
    (∀ s, (IT T f).simp bs wd (.void s) = .void s) := by
  cases f <;>
    exact ⟨fun _ _ _ => rfl, fun _ _ => rfl, fun _ => rfl, fun _ => rfl⟩

theorem extOff_reg (T g : Nat) (rn : String) (n : Nat) :
    (IT T (g + 2)).extOff (.reg rn n) = .ok (.reg rn n, 0) := rfl

theorem simp_ptr_reg (T g : Nat) (rn : String) (n : Nat) (d : Int) :
    (IT T (g + 4)).simp false false (.ptr (.reg rn n) none d n) =
      .ptr (.reg rn n) none d n := by
  show Expr.ptr (.reg rn n) none (d + 0) n = _
  rw [Int.add_zero]

theorem ptrMk_over_ptr (T g : Nat) (rn : String) (n : Nat) (d0 dd : Int) :
    (IT T (g + 3)).ptrMk (.ptr (.reg rn n) none d0 n) none dd =
      .ptr (.reg rn n) none (d0 + dd) n := by
  show Expr.ptr (.reg rn n) none (d0 + dd + 0) n = _
  rw [Int.add_zero]

theorem ptrMk_over_reg (T g : Nat) (rn : String) (n : Nat) (d : Int) :
    (IT T (g + 3)).ptrMk (.reg rn n) none d = .ptr (.reg rn n) none d n := by
  show Expr.ptr (.reg rn n) none (d + 0) n = _
  rw [Int.add_zero]

theorem threshold_false (T : Nat) (hT : T = 0 ∨ 2 ≤ T) (q : PQ)
    (hq : q.num ≤ 2) (h3 : q.d3 = 0) :
    (decide (0 < T) && oGtN (some q) T) = false := by
  rcases hT with rfl | h
  · simp
  · simp [oGtN, pqGtN, h3]
    omega

set_option maxHeartbeats 1600000 in
theorem eqn2_enter (T : Nat) (prev : Interp) (bs wd : Bool) (sym : String)
    (prop : Nat) (l r : Expr) (size : Nat) (sf : Bool)
    (hr : (decide (0 < T) && oGtN (complexityE r) T) = false)
    (hl : (decide (0 < T) && oGtN (complexityE l) T) = false) :
    eqn2B T prev bs wd sym prop l r size sf =
      eqn2core prev bs wd sym prop l r size sf := by
  simp only [eqn2B]
  rw [hr, hl]
  simp only [Bool.false_eq_true, if_false]
  rfl

set_option maxHeartbeats 1600000 in
theorem eqn2core_ptr (T g : Nat) (rn : String) (n : Nat) (d0 : Int) (vc : Nat)
    (fc sfv : Bool) (sym : String) (hsym : sym = "+" ∨ sym = "-") :
    eqn2core (IT T (g + 3)) false false sym 1
        (.ptr (.reg rn n) none d0 n) (.cst vc n fc) n sfv =
      .ptr (.reg rn n) none
        (d0 + (if sym = "+" then cstValue vc n fc else -(cstValue vc n fc))) n := by
  rcases hsym with rfl | rfl
  · cases hv : valueOf (Expr.cst vc n fc) == 0 with
    | true =>
        have hva : valueOf (Expr.cst vc n fc) = 0 := eq_of_beq hv
        simp only [eqn2core]
        rw [hv]
        show Expr.ptr (.reg rn n) none d0 n = _
        rw [show cstValue vc n fc = 0 from hva]
        simp
    | false =>
        simp only [eqn2core]
        rw [hv]
        cases hv1 : valueOf (Expr.cst vc n fc) == 1 with
        | true =>
            show (IT T (g + 3)).ptrMk (.ptr (.reg rn n) none d0 n) none
              (valueOf (Expr.cst vc n fc)) = _
            rw [ptrMk_over_ptr T g]
            rfl
        | false =>
            show (IT T (g + 3)).ptrMk (.ptr (.reg rn n) none d0 n) none
              (valueOf (Expr.cst vc n fc)) = _
            rw [ptrMk_over_ptr T g]
            rfl
  · cases hv : valueOf (Expr.cst vc n fc) == 0 with
    | true =>
        have hva : valueOf (Expr.cst vc n fc) = 0 := eq_of_beq hv
        simp only [eqn2core]
        rw [hv]
        show Expr.ptr (.reg rn n) none d0 n = _
        rw [show cstValue vc n fc = 0 from hva]
        simp
    | false =>
        simp only [eqn2core]
        rw [hv]
        cases hv1 : valueOf (Expr.cst vc n fc) == 1 with
        | true =>
            show (IT T (g + 3)).ptrMk (.ptr (.reg rn n) none d0 n) none
              (-(valueOf (Expr.cst vc n fc))) = _
            rw [ptrMk_over_ptr T g]
            rfl
        | false =>
            show (IT T (g + 3)).ptrMk (.ptr (.reg rn n) none d0 n) none
              (-(valueOf (Expr.cst vc n fc))) = _
            rw [ptrMk_over_ptr T g]
            rfl

theorem eqn2_ptr (T g : Nat) (hT : T = 0 ∨ 2 ≤ T) (rn : String) (n : Nat)
    (d0 : Int) (vc : Nat) (fc sfv : Bool) (sym : String)
    (hsym : sym = "+" ∨ sym = "-") :
    (IT T (g + 4)).eqn2 false false sym 1
        (.ptr (.reg rn n) none d0 n) (.cst vc n fc) n sfv =
      .ptr (.reg rn n) none
        (d0 + (if sym = "+" then cstValue vc n fc else -(cstValue vc n fc))) n := by
  have hrC : (decide (0 < T) && oGtN (complexityE (Expr.cst vc n fc)) T) = false := by
    have hc : complexityE (Expr.cst vc n fc) = some ⟨1, 0⟩ := rfl
    rw [hc]
    exact threshold_false T hT ⟨1, 0⟩ (by decide) rfl
  have hrP : (decide (0 < T) &&
      oGtN (complexityE (Expr.ptr (.reg rn n) none d0 n)) T) = false := by
    have hc : complexityE (Expr.ptr (.reg rn n) none d0 n) = some ⟨2, 0⟩ := rfl
    rw [hc]
    exact threshold_false T hT ⟨2, 0⟩ (by decide) rfl
  have h1 : (IT T (g + 4)).eqn2 false false sym 1
      (.ptr (.reg rn n) none d0 n) (.cst vc n fc) n sfv =
      eqn2B T (IT T (g + 3)) false false sym 1
        (.ptr (.reg rn n) none d0 n) (.cst vc n fc) n sfv := rfl
  rw [h1, eqn2_enter T (IT T (g + 3)) false false sym 1 _ _ n sfv hrC hrP]
  exact eqn2core_ptr T g rn n d0 vc fc sfv sym hsym

theorem opSimp_ptr_cst (T g : Nat) (hT : T = 0 ∨ 2 ≤ T) (rn : String) (n : Nat)
    (d0 : Int) (vc : Nat) (fc sfv : Bool) (sym : String)
    (hsym : sym = "+" ∨ sym = "-") :
    (IT T (g + 6)).opSimp false false sym 1
        (.ptr (.reg rn n) none d0 n) (.cst vc n fc) n sfv =
      .ptr (.reg rn n) none
        (d0 + (if sym = "+" then cstValue vc n fc else -(cstValue vc n fc))) n := by
  rcases hsym with rfl | rfl
  · have h1 : (IT T (g + 6)).opSimp false false "+" 1
        (.ptr (.reg rn n) none d0 n) (.cst vc n fc) n sfv =
        (IT T (g + 5)).eqn2 false false "+" 1
          (.ptr (.reg rn n) none (d0 + 0) n) (.cst vc n fc) n sfv := rfl
    rw [h1]
    exact (eqn2_ptr T (g + 1) hT rn n (d0 + 0) vc fc sfv "+" (Or.inl rfl)).trans
      (by rw [Int.add_zero])
  · have h1 : (IT T (g + 6)).opSimp false false "-" 1
        (.ptr (.reg rn n) none d0 n) (.cst vc n fc) n sfv =
        (IT T (g + 5)).eqn2 false false "-" 1
          (.ptr (.reg rn n) none (d0 + 0) n) (.cst vc n fc) n sfv := rfl
    rw [h1]
    exact (eqn2_ptr T (g + 1) hT rn n (d0 + 0) vc fc sfv "-" (Or.inr rfl)).trans
      (by rw [Int.add_zero])

theorem opInit_ptr_cst (rn : String) (n : Nat) (d0 : Int) (vc : Nat) (fc : Bool)
    (sym : String) (hsym : sym = "+" ∨ sym = "-") :
    opInit sym (.ptr (.reg rn n) none d0 n) (.cst vc n fc) =
      .op sym 1 (.ptr (.reg rn n) none d0 n) (.cst vc n fc) n fc := by
  have h2 : (esize (Expr.ptr (.reg rn n) none d0 n) !=
      esize (Expr.cst vc n fc)) = false := by
    simp [esize]
  rcases hsym with rfl | rfl <;>
  · unfold opInit
    rw [h2]
    simp [isErr, opType, esize, sfOf, isEqn, Nat.or_zero]

theorem oper_ptr_cst (T g : Nat) (hT : T = 0 ∨ 2 ≤ T) (rn : String) (n : Nat)
    (d0 : Int) (vc : Nat) (fc : Bool) (sym : String)
    (hsym : sym = "+" ∨ sym = "-") :
    (IT T (g + 7)).oper sym (.ptr (.reg rn n) none d0 n) (some (.cst vc n fc)) =
      .ptr (.reg rn n) none
        (d0 + (if sym = "+" then cstValue vc n fc else -(cstValue vc n fc))) n := by
  have h1 : (IT T (g + 7)).oper sym (.ptr (.reg rn n) none d0 n)
      (some (.cst vc n fc)) =
      operB (IT T (g + 6)) sym (.ptr (.reg rn n) none d0 n)
        (some (.cst vc n fc)) := rfl
  rw [h1]
  simp only [operB]
  rw [opInit_ptr_cst rn n d0 vc fc sym hsym]
  show (IT T (g + 6)).opSimp false false sym 1
      (.ptr (.reg rn n) none d0 n) (.cst vc n fc) n fc = _
  exact opSimp_ptr_cst T g hT rn n d0 vc fc fc sym hsym

theorem binop_ptr_cst (T g : Nat) (hT : T = 0 ∨ 2 ≤ T) (rn : String) (n : Nat)
    (d0 : Int) (vc : Nat) (fc : Bool) (sym : String)
    (hsym : sym = "+" ∨ sym = "-") :
    (IT T (g + 8)).binop sym (.ptr (.reg rn n) none d0 n) (.cst vc n fc) =
      .ptr (.reg rn n) none
        (d0 + (if sym = "+" then cstValue vc n fc else -(cstValue vc n fc))) n := by
  rcases hsym with rfl | rfl
  · have h1 : (IT T (g + 8)).binop "+" (.ptr (.reg rn n) none d0 n)
        (.cst vc n fc) =
        (IT T (g + 7)).oper "+" (.ptr (.reg rn n) none d0 n)
          (some (.cst vc n fc)) := rfl
    rw [h1]
    exact oper_ptr_cst T g hT rn n d0 vc fc "+" (Or.inl rfl)
  · have h1 : (IT T (g + 8)).binop "-" (.ptr (.reg rn n) none d0 n)
        (.cst vc n fc) =
        (IT T (g + 7)).oper "-" (.ptr (.reg rn n) none d0 n)
          (some (.cst vc n fc)) := rfl
    rw [h1]
    exact oper_ptr_cst T g hT rn n d0 vc fc "-" (Or.inr rfl)

set_option maxHeartbeats 1600000 in
theorem eqn2core_reg (prev : Interp) (rn : String) (n : Nat) (vc : Nat)
    (fc sfv : Bool) :
    ((valueOf (Expr.cst vc n fc) == 0) = true →
      eqn2core prev false false "+" 1 (.reg rn n) (.cst vc n fc) n sfv =
        .reg rn n) ∧
    ((valueOf (Expr.cst vc n fc) == 0) = false →
      eqn2core prev false false "+" 1 (.reg rn n) (.cst vc n fc) n sfv =
        .op "+" 1 (.reg rn n) (.cst vc n fc) n sfv) := by
  constructor
  · intro hv
    simp only [eqn2core]
    rw [hv]
    rfl
  · intro hv
    simp only [eqn2core]
    rw [hv]
    cases hv1 : valueOf (Expr.cst vc n fc) == 1 <;>
      cases hts : toStr (Expr.reg rn n) == toStr (Expr.cst vc n fc) <;> rfl

theorem opSimp_reg_cst (T g : Nat) (hT : T = 0 ∨ 2 ≤ T) (rn : String) (n : Nat)
    (vc : Nat) (fc sfv : Bool) :
    ((valueOf (Expr.cst vc n fc) == 0) = true →
      (IT T (g + 2)).opSimp false false "+" 1 (.reg rn n) (.cst vc n fc) n sfv =
        .reg rn n) ∧
    ((valueOf (Expr.cst vc n fc) == 0) = false →
      (IT T (g + 2)).opSimp false false "+" 1 (.reg rn n) (.cst vc n fc) n sfv =
        .op "+" 1 (.reg rn n) (.cst vc n fc) n sfv) := by
  have hrC : (decide (0 < T) && oGtN (complexityE (Expr.cst vc n fc)) T) = false := by
    have hc : complexityE (Expr.cst vc n fc) = some ⟨1, 0⟩ := rfl
    rw [hc]
    exact threshold_false T hT ⟨1, 0⟩ (by decide) rfl
  have hrL : (decide (0 < T) && oGtN (complexityE (Expr.reg rn n)) T) = false := by
    have hc : complexityE (Expr.reg rn n) = some ⟨2, 0⟩ := rfl
    rw [hc]
    exact threshold_false T hT ⟨2, 0⟩ (by decide) rfl
  have h1 : (IT T (g + 2)).opSimp false false "+" 1 (.reg rn n) (.cst vc n fc) n sfv
      = eqn2B T (IT T g) false false "+" 1 (.reg rn n) (.cst vc n fc) n sfv := rfl
  have h2 := eqn2_enter T (IT T g) false false "+" 1 (.reg rn n) (.cst vc n fc)
    n sfv hrC hrL
  exact ⟨fun hv => (h1.trans h2).trans ((eqn2core_reg (IT T g) rn n vc fc sfv).1 hv),
    fun hv => (h1.trans h2).trans ((eqn2core_reg (IT T g) rn n vc fc sfv).2 hv)⟩

theorem opInit_reg_cst (rn : String) (n : Nat) (vc : Nat) (fc : Bool) :
    opInit "+" (.reg rn n) (.cst vc n fc) =
      .op "+" 1 (.reg rn n) (.cst vc n fc) n fc := by
  have h2 : (esize (Expr.reg rn n) != esize (Expr.cst vc n fc)) = false := by
    simp [esize]
  unfold opInit
  rw [h2]
  simp [isErr, opType, esize, sfOf, isEqn, Nat.or_zero]

theorem oper_reg_cst (T g : Nat) (hT : T = 0 ∨ 2 ≤ T) (rn : String) (n : Nat)
    (vc : Nat) (fc : Bool) :
    ((valueOf (Expr.cst vc n fc) == 0) = true →
      (IT T (g + 3)).oper "+" (.reg rn n) (some (.cst vc n fc)) = .reg rn n) ∧
    ((valueOf (Expr.cst vc n fc) == 0) = false →
      (IT T (g + 3)).oper "+" (.reg rn n) (some (.cst vc n fc)) =
        .op "+" 1 (.reg rn n) (.cst vc n fc) n fc) := by
  have h1 : (IT T (g + 3)).oper "+" (.reg rn n) (some (.cst vc n fc)) =
      operB (IT T (g + 2)) "+" (.reg rn n) (some (.cst vc n fc)) := rfl
  have h3 : operB (IT T (g + 2)) "+" (.reg rn n) (some (.cst vc n fc)) =
      (IT T (g + 2)).opSimp false false "+" 1 (.reg rn n) (.cst vc n fc) n fc := by
    simp only [operB]
    rw [opInit_reg_cst rn n vc fc]
  exact ⟨fun hv => (h1.trans h3).trans ((opSimp_reg_cst T g hT rn n vc fc fc).1 hv),
    fun hv => (h1.trans h3).trans ((opSimp_reg_cst T g hT rn n vc fc fc).2 hv)⟩

theorem binop_reg_cst (T g : Nat) (hT : T = 0 ∨ 2 ≤ T) (rn : String) (n : Nat)
    (vc : Nat) (fc : Bool) :
    ((valueOf (Expr.cst vc n fc) == 0) = true →
      (IT T (g + 4)).binop "+" (.reg rn n) (.cst vc n fc) = .reg rn n) ∧
    ((valueOf (Expr.cst vc n fc) == 0) = false →
      (IT T (g + 4)).binop "+" (.reg rn n) (.cst vc n fc) =
        .op "+" 1 (.reg rn n) (.cst vc n fc) n fc) := by
  have h1 : (IT T (g + 4)).binop "+" (.reg rn n) (.cst vc n fc) =
      (IT T (g + 3)).oper "+" (.reg rn n) (some (.cst vc n fc)) := rfl
  exact ⟨fun hv => h1.trans ((oper_reg_cst T g hT rn n vc fc).1 hv),
    fun hv => h1.trans ((oper_reg_cst T g hT rn n vc fc).2 hv)⟩

theorem extOff_op (T g : Nat) (hT : T = 0 ∨ 2 ≤ T) (rn : String) (n : Nat)
    (vc : Nat) (fc : Bool) :
    (IT T (g + 4)).extOff (.op "+" 1 (.reg rn n) (.cst vc n fc) n fc) =
      .ok (.reg rn n, valueOf (Expr.cst vc n fc)) := by
  have he : (IT T (g + 4)).extOff (.op "+" 1 (.reg rn n) (.cst vc n fc) n fc) =
      extOffB (IT T (g + 3)) (.op "+" 1 (.reg rn n) (.cst vc n fc) n fc) := rfl
  rw [he]
  cases hv : valueOf (Expr.cst vc n fc) == 0 with
  | true =>
      have hs : (IT T (g + 3)).simp false false
          (.op "+" 1 (.reg rn n) (.cst vc n fc) n fc) = .reg rn n :=
        (opSimp_reg_cst T g hT rn n vc fc fc).1 hv
      unfold extOffB
      rw [hs, show valueOf (Expr.cst vc n fc) = 0 from eq_of_beq hv]
      rfl
  | false =>
      have hs : (IT T (g + 3)).simp false false
          (.op "+" 1 (.reg rn n) (.cst vc n fc) n fc) =
          .op "+" 1 (.reg rn n) (.cst vc n fc) n fc :=
        (opSimp_reg_cst T g hT rn n vc fc fc).2 hv
      unfold extOffB
      rw [hs]
      rfl

theorem ptrMk_op (T g : Nat) (hT : T = 0 ∨ 2 ≤ T) (rn : String) (n : Nat)
    (vc : Nat) (fc : Bool) :
    (IT T (g + 5)).ptrMk (.op "+" 1 (.reg rn n) (.cst vc n fc) n fc) none 0 =
      .ptr (.reg rn n) none (valueOf (Expr.cst vc n fc)) n := by
  have h1 : (IT T (g + 5)).ptrMk (.op "+" 1 (.reg rn n) (.cst vc n fc) n fc)
      none 0 =
      ptrMkB (IT T (g + 4)) (.op "+" 1 (.reg rn n) (.cst vc n fc) n fc)
        none 0 := rfl
  rw [h1]
  simp only [ptrMkB]
  rw [extOff_op T g hT rn n vc fc]
  show Expr.ptr (.reg rn n) none (0 + valueOf (Expr.cst vc n fc)) n = _
  rw [Int.zero_add]

/-- C3: every pointer built by arbitrarily nesting `ptr` construction over
another `ptr` or over `base ± constant` (starting from a bare or displaced
register) has an offset-free non-pointer base — the register itself — and a
`disp` equal to the algebraic sum of the constant offsets folded out along
the way.  The complexity threshold (`conf.Cas.complexity`, modelled as `T`)
is taken disabled (`0`) or at least `2` so that it does not collapse the
atoms themselves. -/
theorem ptr_base_offset_free (T : Nat) (hT : T = 0 ∨ 2 ≤ T) (rn : String)
    (n : Nat) (f : Nat) (ch : PtrChain) :
    buildPtr T (f + 8) rn n ch = .ptr (.reg rn n) none (chainDisp n ch) n := by
  induction ch with
  | first d =>
      show (IT T (f + 8)).ptrMk (.reg rn n) none d = _
      exact ptrMk_over_reg T (f + 5) rn n d
  | firstAdd c =>
      show (IT T (f + 8)).ptrMk
        ((IT T (f + 8)).binop "+" (.reg rn n) (cstMk c n)) none 0 = _
      cases hv : valueOf (cstMk c n) == 0 with
      | true =>
          have hb : (IT T (f + 8)).binop "+" (.reg rn n) (cstMk c n) =
              .reg rn n :=
            (binop_reg_cst T (f + 4) hT rn n _ _).1 hv
          rw [hb]
          have hp : (IT T (f + 8)).ptrMk (.reg rn n) none 0 =
              .ptr (.reg rn n) none 0 n :=
            ptrMk_over_reg T (f + 5) rn n 0
          rw [hp]
          show Expr.ptr (.reg rn n) none 0 n =
            Expr.ptr (.reg rn n) none (valueOf (cstMk c n)) n
          rw [show valueOf (cstMk c n) = 0 from eq_of_beq hv]
      | false =>
          have hb : (IT T (f + 8)).binop "+" (.reg rn n) (cstMk c n) =
              .op "+" 1 (.reg rn n) (cstMk c n) n (decide (c < 0)) :=
            (binop_reg_cst T (f + 4) hT rn n _ _).2 hv
          rw [hb]
          have hp : (IT T (f + 8)).ptrMk
              (.op "+" 1 (.reg rn n) (cstMk c n) n (decide (c < 0))) none 0 =
              .ptr (.reg rn n) none (valueOf (cstMk c n)) n :=
            ptrMk_op T (f + 3) hT rn n _ _
          rw [hp]
          rfl
  | wrap p d ih =>
      show (IT T (f + 8)).ptrMk (buildPtr T (f + 8) rn n p) none d = _
      rw [ih]
      have hp : (IT T (f + 8)).ptrMk
          (.ptr (.reg rn n) none (chainDisp n p) n) none d =
          .ptr (.reg rn n) none (chainDisp n p + d) n :=
        ptrMk_over_ptr T (f + 5) rn n _ d
      rw [hp]
      rfl
  | addC p c ih =>
      show (IT T (f + 8)).ptrMk
        ((IT T (f + 8)).binop "+" (buildPtr T (f + 8) rn n p) (cstMk c n))
        none 0 = _
      rw [ih]
      have hb : (IT T (f + 8)).binop "+"
          (.ptr (.reg rn n) none (chainDisp n p) n) (cstMk c n) =
          .ptr (.reg rn n) none (chainDisp n p + valueOf (cstMk c n)) n :=
        binop_ptr_cst T f hT rn n (chainDisp n p) _ _ "+" (Or.inl rfl)
      rw [hb]
      have hp : (IT T (f + 8)).ptrMk
          (.ptr (.reg rn n) none (chainDisp n p + valueOf (cstMk c n)) n)
          none 0 =
          .ptr (.reg rn n) none (chainDisp n p + valueOf (cstMk c n) + 0) n :=
        ptrMk_over_ptr T (f + 5) rn n _ 0
      rw [hp, Int.add_zero]
      rfl
  | subC p c ih =>
      show (IT T (f + 8)).ptrMk
        ((IT T (f + 8)).binop "-" (buildPtr T (f + 8) rn n p) (cstMk c n))
        none 0 = _
      rw [ih]
      have hb : (IT T (f + 8)).binop "-"
          (.ptr (.reg rn n) none (chainDisp n p) n) (cstMk c n) =
          .ptr (.reg rn n) none (chainDisp n p + -(valueOf (cstMk c n))) n :=
        binop_ptr_cst T f hT rn n (chainDisp n p) _ _ "-" (Or.inr rfl)
      rw [hb]
      have hp : (IT T (f + 8)).ptrMk
          (.ptr (.reg rn n) none (chainDisp n p + -(valueOf (cstMk c n))) n)
          none 0 =
          .ptr (.reg rn n) none (chainDisp n p + -(valueOf (cstMk c n)) + 0) n :=
        ptrMk_over_ptr T (f + 5) rn n _ 0
      rw [hp, Int.add_zero]
      show Expr.ptr (.reg rn n) none (chainDisp n p + -(valueOf (cstMk c n))) n =
        Expr.ptr (.reg rn n) none (chainDisp n p - valueOf (cstMk c n)) n
      rw [Int.sub_eq_add_neg]

theorem ptr_base_offset_free_witness :
    buildPtr 0 (0 + 8) "ebp" 32 (.subC (.wrap (.first (-4)) 2) 8) =
      .ptr (.reg "ebp" 32) none
        (chainDisp 32 (.subC (.wrap (.first (-4)) 2) 8)) 32 :=
  ptr_base_offset_free 0 (Or.inl rfl) "ebp" 32 0
    (.subC (.wrap (.first (-4)) 2) 8)

theorem four_le_or (px : Nat) : 4 ≤ 4 ||| px := by
  have h : (4 ||| px).testBit 2 = true := by
    rw [Nat.testBit_or, show Nat.testBit 4 2 = true by decide]
    rfl
  have h2 := Nat.testBit_implies_ge h
  simpa using h2

theorem eight_le_or (px : Nat) : 8 ≤ 8 ||| px := by
  have h : (8 ||| px).testBit 3 = true := by
    rw [Nat.testBit_or, show Nat.testBit 8 3 = true by decide]
    rfl
  have h2 := Nat.testBit_implies_ge h
  simpa using h2

set_option maxHeartbeats 4000000 in
theorem eqn2_top_right (T g : Nat) (hT : T = 0 ∨ 2 ≤ T) (sym : String)
    (prop : Nat) (l : Expr) (n size : Nat) (sf : Bool) :
    (IT T (g + 1)).eqn2 false false sym prop l (.top n) size sf = .top size := by
  rcases hT with rfl | h2
  · rfl
  · have hg : (decide (0 < T) && oGtN (complexityE (Expr.top n)) T) = true := by
      have hd : decide (0 < T) = true := by simp; omega
      rw [hd]
      rfl
    have h1 : (IT T (g + 1)).eqn2 false false sym prop l (.top n) size sf =
        eqn2B T (IT T g) false false sym prop l (.top n) size sf := rfl
    rw [h1]
    simp only [eqn2B]
    rw [hg]
    rfl

set_option maxHeartbeats 4000000 in
theorem eqn2_top_left (T g : Nat) (hT : T = 0 ∨ 2 ≤ T) (sym : String)
    (prop : Nat) (r : Expr) (n size : Nat) (sf : Bool) :
    (IT T (g + 1)).eqn2 false false sym prop (.top n) r size sf = .top size := by
  have h1 : (IT T (g + 1)).eqn2 false false sym prop (.top n) r size sf =
      eqn2B T (IT T g) false false sym prop (.top n) r size sf := rfl
  rw [h1]
  rcases hT with rfl | h2
  · simp only [eqn2B]
    rw [show (decide (0 < 0) && oGtN (complexityE r) 0) = false from rfl,
      show (decide (0 < 0) && oGtN (complexityE (Expr.top n)) 0) = false from rfl]
    simp only [Bool.false_eq_true, if_false]
    cases hr : isTop r with
    | true => rfl
    | false => rfl
  · have hgl : (decide (0 < T) && oGtN (complexityE (Expr.top n)) T) = true := by
      have hd : decide (0 < T) = true := by simp; omega
      rw [hd]
      rfl
    simp only [eqn2B]
    rw [hgl]
    by_cases hgr : (decide (0 < T) && oGtN (complexityE r) T) = true
    · rw [hgr]
      rfl
    · rw [(Bool.not_eq_true _).mp hgr]
      simp only [Bool.false_eq_true, if_false]
      cases hr : isTop r with
      | true => rfl
      | false => rfl

set_option maxHeartbeats 4000000 in
theorem opSimp_left_top (T g : Nat) (hT : T = 0 ∨ 2 ≤ T) (sym : String)
    (prop : Nat) (n size : Nat) (sf : Bool) (r : Expr) :
    ((decide (prop < 4) && !(sym == "/") && !(sym == "%")) = true →
      (IT T (g + 2)).opSimp false false sym prop (.top n) r size sf = .top n) ∧
    ((decide (prop < 4) && !(sym == "/") && !(sym == "%")) = false →
      (IT T (g + 2)).opSimp false false sym prop (.top n) r size sf =
        .top size) := by
  have h1 : (IT T (g + 2)).opSimp false false sym prop (.top n) r size sf =
      opSimpB (IT T (g + 1)) false false sym prop (.top n) r size sf := rfl
  constructor
  · intro h
    rw [h1]
    simp only [opSimpB]
    rw [h]
    rfl
  · intro h
    rw [h1]
    simp only [opSimpB]
    rw [h]
    exact eqn2_top_left T g hT sym prop ((IT T (g + 1)).simp false false r)
      n size sf

set_option maxHeartbeats 4000000 in
theorem opSimp_right_top (T g : Nat) (hT : T = 0 ∨ 2 ≤ T) (sym : String)
    (prop : Nat) (n size : Nat) (sf : Bool) (x : Expr)
    (hx3 : isTop ((IT T (g + 1)).simp false false x) = false) :
    ((decide (prop < 4) && !(sym == "/") && !(sym == "%")) = true →
      (IT T (g + 2)).opSimp false false sym prop x (.top n) size sf = .top n) ∧
    ((decide (prop < 4) && !(sym == "/") && !(sym == "%")) = false →
      (IT T (g + 2)).opSimp false false sym prop x (.top n) size sf =
        .top size) := by
  have h1 : (IT T (g + 2)).opSimp false false sym prop x (.top n) size sf =
      opSimpB (IT T (g + 1)) false false sym prop x (.top n) size sf := rfl
  constructor
  · intro h
    rw [h1]
    simp only [opSimpB]
    rw [h, hx3]
    rfl
  · intro h
    rw [h1]
    simp only [opSimpB]
    rw [h]
    exact eqn2_top_right T g hT sym prop ((IT T (g + 1)).simp false false x)
      n size sf

theorem opInit_left_top (sym : String) (x : Expr) (n : Nat) (hx1 : esize x = n)
    (hxe : isErr x = false) (ht0 : (opType sym == 0) = false) :
    opInit sym (.top n) x =
      .op sym (opType sym ||| (if isEqn x = true then propOf x else 0)) (.top n) x
        (if (opType sym == 4) = true then 1
         else if (sym == "**") = true then 2 * n else n)
        (if (opType sym == 1) = true then sfOf x else false) := by
  unfold opInit
  simp [hxe, hx1, ht0, Nat.or_zero, show esize (Expr.top n) = n from rfl,
    show sfOf (Expr.top n) = false from rfl, show isEqn (Expr.top n) = false from rfl,
    show isErr (Expr.top n) = false from rfl]

theorem opInit_right_top (sym : String) (x : Expr) (n : Nat) (hx1 : esize x = n)
    (hxe : isErr x = false) (ht0 : (opType sym == 0) = false) :
    opInit sym x (.top n) =
      .op sym (opType sym ||| (if isEqn x = true then propOf x else 0)) x (.top n)
        (if (opType sym == 4) = true then 1
         else if (sym == "**") = true then 2 * n else n)
        (sfOf x) := by
  unfold opInit
  simp [hxe, hx1, ht0, Nat.or_zero, show esize (Expr.top n) = n from rfl,
    show sfOf (Expr.top n) = false from rfl, show isEqn (Expr.top n) = false from rfl,
    show isErr (Expr.top n) = false from rfl]

set_option maxHeartbeats 4000000 in
theorem oper_top_both (T g : Nat) (hT : T = 0 ∨ 2 ≤ T) (sym : String) (x : Expr)
    (n : Nat) (hx1 : esize x = n) (hxe : isErr x = false)
    (ht0 : (opType sym == 0) = false)
    (hx3 : isTop ((IT T (g + 1)).simp false false x) = false) :
    ((decide ((opType sym ||| (if isEqn x = true then propOf x else 0)) < 4) &&
        !(sym == "/") && !(sym == "%")) = true →
      (IT T (g + 3)).oper sym (.top n) (some x) = .top n ∧
      (IT T (g + 3)).oper sym x (some (.top n)) = .top n) ∧
    ((decide ((opType sym ||| (if isEqn x = true then propOf x else 0)) < 4) &&
        !(sym == "/") && !(sym == "%")) = false →
      (IT T (g + 3)).oper sym (.top n) (some x) =
        .top (if (opType sym == 4) = true then 1
              else if (sym == "**") = true then 2 * n else n) ∧
      (IT T (g + 3)).oper sym x (some (.top n)) =
        .top (if (opType sym == 4) = true then 1
              else if (sym == "**") = true then 2 * n else n)) := by
  have h1L : (IT T (g + 3)).oper sym (.top n) (some x) =
      operB (IT T (g + 2)) sym (.top n) (some x) := rfl
  have h1R : (IT T (g + 3)).oper sym x (some (.top n)) =
      operB (IT T (g + 2)) sym x (some (.top n)) := rfl
  have h3L : operB (IT T (g + 2)) sym (.top n) (some x) =
      (IT T (g + 2)).opSimp false false sym
        (opType sym ||| (if isEqn x = true then propOf x else 0)) (.top n) x
        (if (opType sym == 4) = true then 1
         else if (sym == "**") = true then 2 * n else n)
        (if (opType sym == 1) = true then sfOf x else false) := by
    simp only [operB]
    rw [opInit_left_top sym x n hx1 hxe ht0]
  have h3R : operB (IT T (g + 2)) sym x (some (.top n)) =
      (IT T (g + 2)).opSimp false false sym
        (opType sym ||| (if isEqn x = true then propOf x else 0)) x (.top n)
        (if (opType sym == 4) = true then 1
         else if (sym == "**") = true then 2 * n else n)
        (sfOf x) := by
    simp only [operB]
    rw [opInit_right_top sym x n hx1 hxe ht0]
  constructor
  · intro h
    exact ⟨(h1L.trans h3L).trans ((opSimp_left_top T g hT sym _ n _ _ x).1 h),
      (h1R.trans h3R).trans ((opSimp_right_top T g hT sym _ n _ _ x hx3).1 h)⟩
  · intro h
    exact ⟨(h1L.trans h3L).trans ((opSimp_left_top T g hT sym _ n _ _ x).2 h),
      (h1R.trans h3R).trans ((opSimp_right_top T g hT sym _ n _ _ x hx3).2 h)⟩

set_option maxHeartbeats 4000000 in
/-- C1 (amended): building an operator node over a `Top` operand through
`oper` simplifies to `Top`, with the width determined by the simplifier
path: width 1 for the comparison class, width `n` for every other operator
except `**`, for which the result is `Top` of width `n` (fast path: the
`Top` operand itself is returned) or of the doubled node width `2n` (the
`eqn2_helpers` path) — not always `2n` as claimed (see the counterexample).
Hypotheses: `x` has width `n`, is not an error, and does not simplify to a
`Top`; the threshold is disabled or at least 2. -/
theorem top_absorption (T f : Nat) (hT : T = 0 ∨ 2 ≤ T) (sym : String)
    (hs : sym ∈ binOps) (x : Expr) (n : Nat)
    (hx1 : esize x = n) (hxe : isErr x = false)
    (hx3 : isTop ((IT T (f + 1)).simp false false x) = false) :
    (sym ∈ cmpOps →
      (IT T (f + 3)).oper sym (.top n) (some x) = .top 1 ∧
      (IT T (f + 3)).oper sym x (some (.top n)) = .top 1) ∧
    (sym ∉ cmpOps → sym ≠ "**" →
      (IT T (f + 3)).oper sym (.top n) (some x) = .top n ∧
      (IT T (f + 3)).oper sym x (some (.top n)) = .top n) ∧
    (sym = "**" →
      ((IT T (f + 3)).oper sym (.top n) (some x) = .top n ∨
        (IT T (f + 3)).oper sym (.top n) (some x) = .top (2 * n)) ∧
      ((IT T (f + 3)).oper sym x (some (.top n)) = .top n ∨
        (IT T (f + 3)).oper sym x (some (.top n)) = .top (2 * n))) := by
  simp only [binOps, List.mem_cons, List.not_mem_nil, or_false] at hs
  rcases hs with rfl | rfl | rfl | rfl | rfl | rfl | rfl | rfl | rfl | rfl | rfl |
    rfl | rfl | rfl | rfl | rfl | rfl | rfl | rfl | rfl | rfl | rfl
  · by_cases hg : (decide ((opType "+" ||| (if isEqn x = true then propOf x else 0)) < 4) &&
        !("+" == "/") && !("+" == "%")) = true
    · have hres := (oper_top_both T f hT "+" x n hx1 hxe rfl hx3).1 hg
      exact ⟨fun hm => absurd hm (by decide), fun _ _ => hres,
        fun he => absurd he (by decide)⟩
    · have hres := (oper_top_both T f hT "+" x n hx1 hxe rfl hx3).2
        ((Bool.not_eq_true _).mp hg)
      exact ⟨fun hm => absurd hm (by decide), fun _ _ => hres,
        fun he => absurd he (by decide)⟩
  · by_cases hg : (decide ((opType "-" ||| (if isEqn x = true then propOf x else 0)) < 4) &&
        !("-" == "/") && !("-" == "%")) = true
    · have hres := (oper_top_both T f hT "-" x n hx1 hxe rfl hx3).1 hg
      exact ⟨fun hm => absurd hm (by decide), fun _ _ => hres,
        fun he => absurd he (by decide)⟩
    · have hres := (oper_top_both T f hT "-" x n hx1 hxe rfl hx3).2
        ((Bool.not_eq_true _).mp hg)
      exact ⟨fun hm => absurd hm (by decide), fun _ _ => hres,
        fun he => absurd he (by decide)⟩
  · by_cases hg : (decide ((opType "*" ||| (if isEqn x = true then propOf x else 0)) < 4) &&
        !("*" == "/") && !("*" == "%")) = true
    · have hres := (oper_top_both T f hT "*" x n hx1 hxe rfl hx3).1 hg
      exact ⟨fun hm => absurd hm (by decide), fun _ _ => hres,
        fun he => absurd he (by decide)⟩
    · have hres := (oper_top_both T f hT "*" x n hx1 hxe rfl hx3).2
        ((Bool.not_eq_true _).mp hg)
      exact ⟨fun hm => absurd hm (by decide), fun _ _ => hres,
        fun he => absurd he (by decide)⟩
  · by_cases hg : (decide ((opType "**" ||| (if isEqn x = true then propOf x else 0)) < 4) &&
        !("**" == "/") && !("**" == "%")) = true
    · have hres := (oper_top_both T f hT "**" x n hx1 hxe rfl hx3).1 hg
      exact ⟨fun hm => absurd hm (by decide), fun _ hne => absurd rfl hne,
        fun _ => ⟨Or.inl hres.1, Or.inl hres.2⟩⟩
    · have hres := (oper_top_both T f hT "**" x n hx1 hxe rfl hx3).2
        ((Bool.not_eq_true _).mp hg)
      exact ⟨fun hm => absurd hm (by decide), fun _ hne => absurd rfl hne,
        fun _ => ⟨Or.inr hres.1, Or.inr hres.2⟩⟩
  · have hgf : (decide ((opType "/" ||| (if isEqn x = true then propOf x else 0)) < 4) &&
        !("/" == "/") && !("/" == "%")) = false := by
      simp
    have hres := (oper_top_both T f hT "/" x n hx1 hxe rfl hx3).2 hgf
    exact ⟨fun hm => absurd hm (by decide), fun _ _ => hres,
      fun he => absurd he (by decide)⟩
  · have hgf : (decide ((opType "%" ||| (if isEqn x = true then propOf x else 0)) < 4) &&
        !("%" == "/") && !("%" == "%")) = false := by
      simp
    have hres := (oper_top_both T f hT "%" x n hx1 hxe rfl hx3).2 hgf
    exact ⟨fun hm => absurd hm (by decide), fun _ _ => hres,
      fun he => absurd he (by decide)⟩
  · by_cases hg : (decide ((opType "&" ||| (if isEqn x = true then propOf x else 0)) < 4) &&
        !("&" == "/") && !("&" == "%")) = true
    · have hres := (oper_top_both T f hT "&" x n hx1 hxe rfl hx3).1 hg
      exact ⟨fun hm => absurd hm (by decide), fun _ _ => hres,
        fun he => absurd he (by decide)⟩
    · have hres := (oper_top_both T f hT "&" x n hx1 hxe rfl hx3).2
        ((Bool.not_eq_true _).mp hg)
      exact ⟨fun hm => absurd hm (by decide), fun _ _ => hres,
        fun he => absurd he (by decide)⟩
  · by_cases hg : (decide ((opType "|" ||| (if isEqn x = true then propOf x else 0)) < 4) &&
        !("|" == "/") && !("|" == "%")) = true
    · have hres := (oper_top_both T f hT "|" x n hx1 hxe rfl hx3).1 hg
      exact ⟨fun hm => absurd hm (by decide), fun _ _ => hres,
        fun he => absurd he (by decide)⟩
    · have hres := (oper_top_both T f hT "|" x n hx1 hxe rfl hx3).2
        ((Bool.not_eq_true _).mp hg)
      exact ⟨fun hm => absurd hm (by decide), fun _ _ => hres,
        fun he => absurd he (by decide)⟩
  · by_cases hg : (decide ((opType "^" ||| (if isEqn x = true then propOf x else 0)) < 4) &&
        !("^" == "/") && !("^" == "%")) = true
    · have hres := (oper_top_both T f hT "^" x n hx1 hxe rfl hx3).1 hg
      exact ⟨fun hm => absurd hm (by decide), fun _ _ => hres,
        fun he => absurd he (by decide)⟩
    · have hres := (oper_top_both T f hT "^" x n hx1 hxe rfl hx3).2
        ((Bool.not_eq_true _).mp hg)
      exact ⟨fun hm => absurd hm (by decide), fun _ _ => hres,
        fun he => absurd he (by decide)⟩
  · have hq : ¬((opType "==" ||| (if isEqn x = true then propOf x else 0)) < 4) := by
      rw [show opType "==" = 4 from rfl]
      exact Nat.not_lt.mpr (four_le_or _)
    have hgf : (decide ((opType "==" ||| (if isEqn x = true then propOf x else 0)) < 4) &&
        !("==" == "/") && !("==" == "%")) = false := by
      rw [decide_eq_false hq]
      rfl
    have hres := (oper_top_both T f hT "==" x n hx1 hxe rfl hx3).2 hgf
    exact ⟨fun _ => hres, fun hm _ => absurd (by decide) hm,
      fun he => absurd he (by decide)⟩
  · have hq : ¬((opType "!=" ||| (if isEqn x = true then propOf x else 0)) < 4) := by
      rw [show opType "!=" = 4 from rfl]
      exact Nat.not_lt.mpr (four_le_or _)
    have hgf : (decide ((opType "!=" ||| (if isEqn x = true then propOf x else 0)) < 4) &&
        !("!=" == "/") && !("!=" == "%")) = false := by
      rw [decide_eq_false hq]
      rfl
    have hres := (oper_top_both T f hT "!=" x n hx1 hxe rfl hx3).2 hgf
    exact ⟨fun _ => hres, fun hm _ => absurd (by decide) hm,
      fun he => absurd he (by decide)⟩
  · have hq : ¬((opType "<=" ||| (if isEqn x = true then propOf x else 0)) < 4) := by
      rw [show opType "<=" = 4 from rfl]
      exact Nat.not_lt.mpr (four_le_or _)
    have hgf : (decide ((opType "<=" ||| (if isEqn x = true then propOf x else 0)) < 4) &&
        !("<=" == "/") && !("<=" == "%")) = false := by
      rw [decide_eq_false hq]
      rfl
    have hres := (oper_top_both T f hT "<=" x n hx1 hxe rfl hx3).2 hgf
    exact ⟨fun _ => hres, fun hm _ => absurd (by decide) hm,
      fun he => absurd he (by decide)⟩
  · have hq : ¬((opType ">=" ||| (if isEqn x = true then propOf x else 0)) < 4) := by
      rw [show opType ">=" = 4 from rfl]
      exact Nat.not_lt.mpr (four_le_or _)
    have hgf : (decide ((opType ">=" ||| (if isEqn x = true then propOf x else 0)) < 4) &&
        !(">=" == "/") && !(">=" == "%")) = false := by
      rw [decide_eq_false hq]
      rfl
    have hres := (oper_top_both T f hT ">=" x n hx1 hxe rfl hx3).2 hgf
    exact ⟨fun _ => hres, fun hm _ => absurd (by decide) hm,
      fun he => absurd he (by decide)⟩
  · have hq : ¬((opType ">=." ||| (if isEqn x = true then propOf x else 0)) < 4) := by
      rw [show opType ">=." = 4 from rfl]
      exact Nat.not_lt.mpr (four_le_or _)
    have hgf : (decide ((opType ">=." ||| (if isEqn x = true then propOf x else 0)) < 4) &&
        !(">=." == "/") && !(">=." == "%")) = false := by
      rw [decide_eq_false hq]
      rfl
    have hres := (oper_top_both T f hT ">=." x n hx1 hxe rfl hx3).2 hgf
    exact ⟨fun _ => hres, fun hm _ => absurd (by decide) hm,
      fun he => absurd he (by decide)⟩
  · have hq : ¬((opType "<" ||| (if isEqn x = true then propOf x else 0)) < 4) := by
      rw [show opType "<" = 4 from rfl]
      exact Nat.not_lt.mpr (four_le_or _)
    have hgf : (decide ((opType "<" ||| (if isEqn x = true then propOf x else 0)) < 4) &&
        !("<" == "/") && !("<" == "%")) = false := by
      rw [decide_eq_false hq]
      rfl
    have hres := (oper_top_both T f hT "<" x n hx1 hxe rfl hx3).2 hgf
    exact ⟨fun _ => hres, fun hm _ => absurd (by decide) hm,
      fun he => absurd he (by decide)⟩
  · have hq : ¬((opType "<." ||| (if isEqn x = true then propOf x else 0)) < 4) := by
      rw [show opType "<." = 4 from rfl]
      exact Nat.not_lt.mpr (four_le_or _)
    have hgf : (decide ((opType "<." ||| (if isEqn x = true then propOf x else 0)) < 4) &&
        !("<." == "/") && !("<." == "%")) = false := by
      rw [decide_eq_false hq]
      rfl
    have hres := (oper_top_both T f hT "<." x n hx1 hxe rfl hx3).2 hgf
    exact ⟨fun _ => hres, fun hm _ => absurd (by decide) hm,
      fun he => absurd he (by decide)⟩
  · have hq : ¬((opType ">" ||| (if isEqn x = true then propOf x else 0)) < 4) := by
      rw [show opType ">" = 4 from rfl]
      exact Nat.not_lt.mpr (four_le_or _)
    have hgf : (decide ((opType ">" ||| (if isEqn x = true then propOf x else 0)) < 4) &&
        !(">" == "/") && !(">" == "%")) = false := by
      rw [decide_eq_false hq]
      rfl
    have hres := (oper_top_both T f hT ">" x n hx1 hxe rfl hx3).2 hgf
    exact ⟨fun _ => hres, fun hm _ => absurd (by decide) hm,
      fun he => absurd he (by decide)⟩
  · have hq : ¬((opType "<<" ||| (if isEqn x = true then propOf x else 0)) < 4) := by
      rw [show opType "<<" = 8 from rfl]
      exact Nat.not_lt.mpr (le_trans (by norm_num) (eight_le_or _))
    have hgf : (decide ((opType "<<" ||| (if isEqn x = true then propOf x else 0)) < 4) &&
        !("<<" == "/") && !("<<" == "%")) = false := by
      rw [decide_eq_false hq]
      rfl
    have hres := (oper_top_both T f hT "<<" x n hx1 hxe rfl hx3).2 hgf
    exact ⟨fun hm => absurd hm (by decide), fun _ _ => hres,
      fun he => absurd he (by decide)⟩
  · have hq : ¬((opType ">>" ||| (if isEqn x = true then propOf x else 0)) < 4) := by
      rw [show opType ">>" = 8 from rfl]
      exact Nat.not_lt.mpr (le_trans (by norm_num) (eight_le_or _))
    have hgf : (decide ((opType ">>" ||| (if isEqn x = true then propOf x else 0)) < 4) &&
        !(">>" == "/") && !(">>" == "%")) = false := by
      rw [decide_eq_false hq]
      rfl
    have hres := (oper_top_both T f hT ">>" x n hx1 hxe rfl hx3).2 hgf
    exact ⟨fun hm => absurd hm (by decide), fun _ _ => hres,
      fun he => absurd he (by decide)⟩
  · have hq : ¬((opType ".>>" ||| (if isEqn x = true then propOf x else 0)) < 4) := by
      rw [show opType ".>>" = 8 from rfl]
      exact Nat.not_lt.mpr (le_trans (by norm_num) (eight_le_or _))
    have hgf : (decide ((opType ".>>" ||| (if isEqn x = true then propOf x else 0)) < 4) &&
        !(".>>" == "/") && !(".>>" == "%")) = false := by
      rw [decide_eq_false hq]
      rfl
    have hres := (oper_top_both T f hT ".>>" x n hx1 hxe rfl hx3).2 hgf
    exact ⟨fun hm => absurd hm (by decide), fun _ _ => hres,
      fun he => absurd he (by decide)⟩
  · have hq : ¬((opType ">>>" ||| (if isEqn x = true then propOf x else 0)) < 4) := by
      rw [show opType ">>>" = 8 from rfl]
      exact Nat.not_lt.mpr (le_trans (by norm_num) (eight_le_or _))
    have hgf : (decide ((opType ">>>" ||| (if isEqn x = true then propOf x else 0)) < 4) &&
        !(">>>" == "/") && !(">>>" == "%")) = false := by
      rw [decide_eq_false hq]
      rfl
    have hres := (oper_top_both T f hT ">>>" x n hx1 hxe rfl hx3).2 hgf
    exact ⟨fun hm => absurd hm (by decide), fun _ _ => hres,
      fun he => absurd he (by decide)⟩
  · have hq : ¬((opType "<<<" ||| (if isEqn x = true then propOf x else 0)) < 4) := by
      rw [show opType "<<<" = 8 from rfl]
      exact Nat.not_lt.mpr (le_trans (by norm_num) (eight_le_or _))
    have hgf : (decide ((opType "<<<" ||| (if isEqn x = true then propOf x else 0)) < 4) &&
        !("<<<" == "/") && !("<<<" == "%")) = false := by
      rw [decide_eq_false hq]
      rfl
    have hres := (oper_top_both T f hT "<<<" x n hx1 hxe rfl hx3).2 hgf
    exact ⟨fun hm => absurd hm (by decide), fun _ _ => hres,
      fun he => absurd he (by decide)⟩

theorem top_absorption_witness :
    (("+" : String) ∈ cmpOps →
      (IT 0 (0 + 3)).oper "+" (.top 32) (some (.reg "eax" 32)) = .top 1 ∧
      (IT 0 (0 + 3)).oper "+" (.reg "eax" 32) (some (.top 32)) = .top 1) ∧
    (("+" : String) ∉ cmpOps → ("+" : String) ≠ "**" →
      (IT 0 (0 + 3)).oper "+" (.top 32) (some (.reg "eax" 32)) = .top 32 ∧
      (IT 0 (0 + 3)).oper "+" (.reg "eax" 32) (some (.top 32)) = .top 32) ∧
    (("+" : String) = "**" →
      ((IT 0 (0 + 3)).oper "+" (.top 32) (some (.reg "eax" 32)) = .top 32 ∨
        (IT 0 (0 + 3)).oper "+" (.top 32) (some (.reg "eax" 32)) = .top (2 * 32)) ∧
      ((IT 0 (0 + 3)).oper "+" (.reg "eax" 32) (some (.top 32)) = .top 32 ∨
        (IT 0 (0 + 3)).oper "+" (.reg "eax" 32) (some (.top 32)) = .top (2 * 32))) :=
  top_absorption 0 0 (Or.inl rfl) "+" (by decide) (.reg "eax" 32) 32 rfl rfl rfl

/-- C1 counterexample: `oper("**", Top(4), cst(1,4))` simplifies to `Top(4)`
(the fast path of `op.simplify` returns the `Top` operand itself), not to
`Top(8)`, the derived `2n` width of the `**` node. -/
theorem top_absorption_cex :
    (IT 100 6).oper "**" (.top 4) (some (.cst 1 4 false)) = .top 4 ∧
    Expr.top 4 ≠ Expr.top 8 := ⟨rfl, by simp⟩

end Amoco

